import Mathlib

/-!
Shallow embedding of the SLA-driven complaint lifecycle core of the
student-complaint-management-system repository
(complaints/models.py, complaints/signals.py, complaints/tasks.py,
complaints/views.py), together with proofs about the spec's claims.

Timestamps are embedded as naturals (hours since an arbitrary epoch);
the only operations the code performs on them are comparison and adding
an hour budget, which this captures exactly.  Django's persistence layer
is embedded as explicit state passing over a `DB` record; a model save
with `update_fields` persists exactly the named columns, and the
`pre_save`/`post_save` signal receivers registered in signals.py run as
part of each save, as they do in the framework.
-/

namespace ComplaintSystem

/-- Timestamps, in hours since an arbitrary epoch. -/
abbrev Time := Nat

/-- Complaint.Status (models.py, class Status). -/
inductive Status
  | pending
  | in_progress
  | resolved
  | escalated
  | closed
  deriving DecidableEq

/-- Complaint.Priority (models.py, class Priority). -/
inductive Priority
  | low
  | medium
  | high
  | urgent
  deriving DecidableEq

/-- Escalation.Reason (models.py, class Reason). -/
inductive Reason
  | sla_breach
  | customer_request
  | complexity
  | unresolved
  | other
  deriving DecidableEq

/-- The Complaint row (models.py, class Complaint).  Users are embedded by
their numeric id; free-text fields that no claim depends on (title,
description) are omitted, `solution` is kept since the staff update form
writes it. -/
structure Complaint where
  id : Nat
  student : Nat
  assigned_staff : Option Nat
  category : Option Nat
  priority : Priority
  status : Status
  solution : Option String
  sla_deadline : Option Time
  is_sla_breached : Bool
  created_at : Time
  resolved_at : Option Time
  deriving DecidableEq

/-- The SLA row (models.py, class SLA). -/
structure SLA where
  priority : Priority
  response_time_hours : Nat
  resolution_time_hours : Nat
  is_active : Bool
  deriving DecidableEq

/-- The Escalation row (models.py, class Escalation). -/
structure Escalation where
  complaint_id : Nat
  escalated_by : Option Nat
  escalated_to : Option Nat
  reason : Reason
  resolved : Bool
  resolved_at : Option Time
  deriving DecidableEq

/-- The persisted store: the three tables the core reads and writes. -/
structure DB where
  complaints : List Complaint
  escalations : List Escalation
  slas : List SLA
  deriving DecidableEq

/-- SLA.objects.filter(priority=..., is_active=True).first() (models.py
line 96-100).  Since SLA.priority is declared unique, this agrees with the
SLA.objects.get(...) lookup in signals.py complaint_created. -/
def findActiveSLA (slas : List SLA) (p : Priority) : Option SLA :=
  slas.find? (fun s => decide (s.priority = p) && s.is_active)

/-- Lookup of a complaint row by primary key. -/
def getC (db : DB) (cid : Nat) : Option Complaint :=
  db.complaints.find? (fun c => c.id == cid)

/-- The breach condition of Complaint.save (models.py lines 110-114):
deadline set, status not RESOLVED/CLOSED, and now past the deadline. -/
def overdueNow (now : Time) (c : Complaint) : Bool :=
  match c.sla_deadline with
  | some d => !(decide (c.status = Status.resolved)) && !(decide (c.status = Status.closed)) && decide (d < now)
  | none => false

/-- Complaint.save, lines 95-105: on creation with no deadline yet, stamp
sla_deadline from the active SLA policy for the complaint's priority. -/
def slaStampStep (slas : List SLA) (now : Time) (creating : Bool) (c : Complaint) : Complaint :=
  if creating ∧ c.sla_deadline = none then
    match findActiveSLA slas c.priority with
    | some sla => { c with sla_deadline := some (now + sla.resolution_time_hours) }
    | none => c
  else c

/-- Complaint.save, lines 107-108: stamp resolved_at when saving in status
RESOLVED with resolved_at still unset. -/
def resolvedStampStep (now : Time) (c : Complaint) : Complaint :=
  if c.status = Status.resolved ∧ c.resolved_at = none then { c with resolved_at := some now } else c

/-- Complaint.save, lines 110-115: mark the SLA breach flag. -/
def breachStep (now : Time) (c : Complaint) : Complaint :=
  if overdueNow now c then { c with is_sla_breached := true } else c

/-- The body of Complaint.save (models.py lines 92-115) before
super().save(). -/
def complaintSaveBody (slas : List SLA) (now : Time) (creating : Bool) (c : Complaint) : Complaint :=
  breachStep now (resolvedStampStep now (slaStampStep slas now creating c))

/-- The pre_save receiver complaint_status_changed (signals.py lines
35-65).  `old` is the row currently in the store (None on insert, when the
receiver body is skipped because instance.pk is None).  Its only state
effect: when the status changed and the new status is RESOLVED, it stamps
resolved_at with the current time (unconditionally, even if already set). -/
def complaintPreSave (old : Option Complaint) (now : Time) (c : Complaint) : Complaint :=
  match old with
  | some o =>
      if o.status ≠ c.status ∧ c.status = Status.resolved then { c with resolved_at := some now }
      else c
  | none => c

/-- The in-memory instance produced by an UPDATE-style Complaint.save call
(pk already set, so creating is False): the save body runs, then the
pre_save receiver. -/
def saveInstance (slas : List SLA) (old : Option Complaint) (now : Time) (u : Complaint) : Complaint :=
  complaintPreSave old now (complaintSaveBody slas now false u)

/-- The update_fields arguments that occur in the repository's
Complaint.save call sites: a plain save persists every column; signals.py
and tasks.py pass ['status', ...], ['is_sla_breached', 'updated_at'] or
['assigned_staff', 'updated_at'].  (updated_at is not modelled; no claim
mentions it.) -/
inductive UpdateFields
  | all
  | statusOnly
  | breachOnly
  | staffOnly
  deriving DecidableEq

/-- Persist an instance over the stored row, writing only the columns
named by update_fields. -/
def persistFields : UpdateFields → Complaint → Complaint → Complaint
  | .all, _, c2 => c2
  | .statusOnly, o, c2 => { o with status := c2.status }
  | .breachOnly, o, c2 => { o with is_sla_breached := c2.is_sla_breached }
  | .staffOnly, o, c2 => { o with assigned_staff := c2.assigned_staff }

/-- UPDATE ... WHERE pk = cid over the complaint table. -/
def updateById (l : List Complaint) (cid : Nat) (g : Complaint → Complaint) : List Complaint :=
  l.map (fun o => if o.id == cid then g o else o)

/-- How many rows of the complaint table carry a given primary key (at
most one in any store the database's pk constraint admits). -/
def countId (l : List Complaint) (cid : Nat) : Nat :=
  l.countP (fun o => o.id == cid)

/-- A full Complaint.save on an existing row `u` (an in-memory instance
whose pk is u.id): run the save body and the pre_save receiver, then write
the columns selected by update_fields back to the store. -/
def saveComplaint (db : DB) (now : Time) (u : Complaint) (fields : UpdateFields) : DB :=
  let old := getC db u.id
  let c2 := saveInstance db.slas old now u
  { db with complaints := updateById db.complaints u.id (fun o => persistFields fields o c2) }

/-- Complaint creation (views.py student_create_complaint together with
Complaint.save on insert and the post_save receiver complaint_created,
signals.py lines 17-32): the save body runs with creating=True (stamping
the deadline from the active SLA policy if one exists), the row is
inserted, and the post_save receiver looks the policy up again and writes
sla_deadline with a direct queryset update (a no-op rewrite of the same
value, or nothing when no active policy exists). -/
def createComplaint (db : DB) (now : Time) (id student : Nat) (cat : Option Nat) (pr : Priority) : DB :=
  let c0 : Complaint :=
    { id := id, student := student, assigned_staff := none, category := cat,
      priority := pr, status := Status.pending, solution := none, sla_deadline := none,
      is_sla_breached := false, created_at := now, resolved_at := none }
  let c1 := complaintSaveBody db.slas now true c0
  let db1 : DB := { db with complaints := db.complaints ++ [c1] }
  match findActiveSLA db.slas pr with
  | some sla =>
      let stamp := fun (o : Complaint) => { o with sla_deadline := some (now + sla.resolution_time_hours) }
      { db1 with complaints := updateById db1.complaints id stamp }
  | none => db1

/-- Escalation.objects.create / Escalation.save on a fresh record
(models.py lines 179-187) followed by the post_save receiver
escalation_created (signals.py lines 68-81).  `c` is the in-memory
complaint instance the record is created against.  The save first forces
the complaint's status to ESCALATED and persists it with
update_fields=['status']; the fresh record has resolved=False so the
resolved_at branch of Escalation.save is skipped; the post_save receiver
re-checks the (already updated, in-memory) complaint and finds nothing to
do. -/
def escalationCreate (db : DB) (now : Time) (c : Complaint) (r : Reason) (escBy escTo : Option Nat) : DB :=
  let cMem := { c with status := Status.escalated }
  let db1 := saveComplaint db now cMem .statusOnly
  let e : Escalation :=
    { complaint_id := c.id, escalated_by := escBy, escalated_to := escTo,
      reason := r, resolved := false, resolved_at := none }
  let db2 : DB := { db1 with escalations := db1.escalations ++ [e] }
  if cMem.status ≠ Status.escalated then
    saveComplaint db2 now { cMem with status := Status.escalated } .statusOnly
  else db2

/-- Outcome surfaced by the staff claim view. -/
inductive ClaimOutcome
  | notFound
  | alreadyAssigned
  | claimed
  deriving DecidableEq

/-- views.py staff_claim_complaint (lines 258-272): warn (and change
nothing) if the complaint already has an assignee, otherwise set
assigned_staff to the acting staff member, set status IN_PROGRESS, and do
a full save. -/
def staff_claim_complaint (db : DB) (now : Time) (actor cid : Nat) : DB × ClaimOutcome :=
  match getC db cid with
  | none => (db, ClaimOutcome.notFound)
  | some c =>
      if c.assigned_staff.isSome then (db, ClaimOutcome.alreadyAssigned)
      else
        (saveComplaint db now { c with assigned_staff := some actor, status := Status.in_progress } .all,
         ClaimOutcome.claimed)

/-- The data a valid ComplaintStatusUpdateForm carries (forms.py,
ComplaintStatusUpdateForm: fields status, solution, assigned_staff;
assigned_staff is optional). -/
structure StatusUpdateForm where
  status : Status
  solution : Option String
  assigned_staff : Option Nat
  deriving DecidableEq

/-- Outcome surfaced by the staff update view. -/
inductive UpdateOutcome
  | notFound
  | assignedToOther
  | updated
  deriving DecidableEq

/-- The in-memory instance produced by form.save(commit=False) on the
staff status-update form followed by the view's auto-assign (views.py
lines 229-232): the form's status/solution/assigned_staff are applied to
the row, then the acting staff member is filled in when the resulting
instance has no assignee. -/
def appliedForm (c : Complaint) (actor : Nat) (f : StatusUpdateForm) : Complaint :=
  let u := { c with status := f.status, solution := f.solution,
                    assigned_staff := f.assigned_staff }
  if u.assigned_staff = none then { u with assigned_staff := some actor } else u

/-- views.py staff_update_complaint (lines 213-243): reject when the
complaint is assigned to a different staff member; otherwise apply the
form and the auto-assign and do a full save. -/
def staff_update_complaint (db : DB) (now : Time) (actor cid : Nat) (f : StatusUpdateForm) :
    DB × UpdateOutcome :=
  match getC db cid with
  | none => (db, UpdateOutcome.notFound)
  | some c =>
      if c.assigned_staff.isSome ∧ c.assigned_staff ≠ some actor then
        (db, UpdateOutcome.assignedToOther)
      else
        (saveComplaint db now (appliedForm c actor f) .all, UpdateOutcome.updated)

/-- views.py admin_escalate_complaint (lines 404-426): create the
Escalation record (which already forces and persists status=ESCALATED),
then redundantly set status on the in-memory complaint and do a full
save. -/
def admin_escalate_complaint (db : DB) (now : Time) (actor cid : Nat) (r : Reason) : DB :=
  match getC db cid with
  | none => db
  | some c =>
      let db1 := escalationCreate db now c r (some actor) none
      saveComplaint db1 now { c with status := Status.escalated } .all

/-- The selection predicate of check_sla_breaches (tasks.py lines 25-29):
sla_deadline < now, is_sla_breached False, status PENDING or
IN_PROGRESS. -/
def breachFilter (now : Time) (c : Complaint) : Bool :=
  (match c.sla_deadline with
   | some d => decide (d < now)
   | none => false)
  && !c.is_sla_breached
  && (decide (c.status = Status.pending) || decide (c.status = Status.in_progress))

/-- tasks.py check_sla_breaches (lines 17-41): select the breached
complaints once, then mark each is_sla_breached=True and save it with
update_fields=['is_sla_breached', 'updated_at']; return how many were
marked. -/
def check_sla_breaches (db : DB) (now : Time) : DB × Nat :=
  let hits := db.complaints.filter (breachFilter now)
  (hits.foldl (fun acc c => saveComplaint acc now { c with is_sla_breached := true } .breachOnly) db,
   hits.length)

/-- escalations__resolved=False exists for the complaint (the .exclude
clause of auto_escalate_overdue, tasks.py lines 57-59). -/
def hasActiveEscalation (db : DB) (cid : Nat) : Bool :=
  db.escalations.any (fun e => e.complaint_id == cid && !e.resolved)

/-- The selection predicate of auto_escalate_overdue (tasks.py lines
53-59): is_sla_breached True, status PENDING or IN_PROGRESS, created_at
before now minus the threshold, and no unresolved escalation attached.
created_at < now - threshold is written additively so that the embedding
matches datetime arithmetic also when threshold exceeds now. -/
def overdueFilter (db : DB) (now threshold : Time) (c : Complaint) : Bool :=
  c.is_sla_breached
  && (decide (c.status = Status.pending) || decide (c.status = Status.in_progress))
  && decide (c.created_at + threshold < now)
  && !(hasActiveEscalation db c.id)

/-- tasks.py auto_escalate_overdue (lines 44-76): select the severely
overdue complaints once (the queryset is evaluated before the loop runs),
then for each create an Escalation with reason SLA_BREACH (which itself
forces status=ESCALATED) and redundantly save status=ESCALATED with
update_fields=['status', 'updated_at']; return how many were escalated.
The threshold (hours) is settings.SLA_RESOLUTION_TIME * 2, passed in
explicitly here. -/
def auto_escalate_overdue (db : DB) (now threshold : Time) : DB × Nat :=
  let hits := db.complaints.filter (overdueFilter db now threshold)
  (hits.foldl (fun acc c =>
      let acc1 := escalationCreate acc now c Reason.sla_breach none none
      saveComplaint acc1 now { c with status := Status.escalated } .statusOnly) db,
   hits.length)

/-- The failure mode of tasks.py assign_pending_complaints: tasks.py never
imports django.db.models (its imports are timezone, settings, timedelta,
logging, the two model classes and CustomUser), yet lines 97 and 99 read
models.Count and models.Q, so evaluating the staff_list annotation raises
NameError. -/
inductive TaskError
  | nameErrorModels
  deriving DecidableEq

/-- The queryset of unassigned pending complaints (tasks.py lines
84-87). -/
def pendingUnassigned (db : DB) : List Complaint :=
  db.complaints.filter (fun c => c.assigned_staff.isNone && decide (c.status = Status.pending))

/-- tasks.py assign_pending_complaints (lines 79-124), modelled faithfully
to the module as written: when no pending unassigned complaint exists the
function returns 0 before the staff query is built (line 89-90); otherwise
building the staff_list queryset evaluates models.Count / models.Q (lines
97-104) and raises NameError because the name `models` is not bound in
tasks.py, so no assignment is ever performed. -/
def assign_pending_complaints (db : DB) : Except TaskError (DB × Nat) :=
  if (pendingUnassigned db).isEmpty then Except.ok (db, 0)
  else Except.error TaskError.nameErrorModels

/-- The core operations the spec's invariants quantify over. -/
inductive Op
  | createC (id student : Nat) (cat : Option Nat) (pr : Priority)
  | updateC (actor cid : Nat) (f : StatusUpdateForm)
  | claimC (actor cid : Nat)
  | escalateC (actor cid : Nat) (r : Reason)
  | sweep
  | autoEscalate (threshold : Time)

/-- Dispatch one core operation at one instant. -/
def applyOp (db : DB) (now : Time) : Op → DB
  | Op.createC id st cat pr => createComplaint db now id st cat pr
  | Op.updateC a cid f => (staff_update_complaint db now a cid f).1
  | Op.claimC a cid => (staff_claim_complaint db now a cid).1
  | Op.escalateC a cid r => admin_escalate_complaint db now a cid r
  | Op.sweep => (check_sla_breaches db now).1
  | Op.autoEscalate th => (auto_escalate_overdue db now th).1

/-- Run a timed sequence of core operations. -/
def runOps (db : DB) : List (Time × Op) → DB
  | [] => db
  | (t, op) :: rest => runOps (applyOp db t op) rest

/-- A fresh pending unassigned complaint, used by the concrete check
theorems. -/
def exComplaint : Complaint :=
  { id := 1, student := 10, assigned_staff := none, category := none,
    priority := Priority.urgent, status := Status.pending, solution := none,
    sla_deadline := none, is_sla_breached := false, created_at := 0, resolved_at := none }

/-- A status-update form carrying a given status, no solution text and no
explicit assignee. -/
def exForm (st : Status) : StatusUpdateForm :=
  { status := st, solution := none, assigned_staff := none }

/-- A status-update form that itself names staff 8 as assignee. -/
def exForm10 : StatusUpdateForm :=
  { status := Status.pending, solution := none, assigned_staff := some 8 }

/-- Store holding just the fresh complaint. -/
def exDB1 : DB := { complaints := [exComplaint], escalations := [], slas := [] }

/-- Empty store. -/
def exDBempty : DB := { complaints := [], escalations := [], slas := [] }

/-- Store holding one already-breached complaint. -/
def exDB2 : DB :=
  { complaints := [{ exComplaint with is_sla_breached := true }], escalations := [], slas := [] }

/-- A complaint already resolved at time 2. -/
def exResolved : Complaint :=
  { exComplaint with status := Status.resolved, resolved_at := some 2 }

/-- Store holding the resolved complaint. -/
def exDB3 : DB := { complaints := [exResolved], escalations := [], slas := [] }

/-- An overdue ESCALATED complaint: deadline 5, not yet marked breached. -/
def exC5 : Complaint :=
  { exComplaint with id := 3, status := Status.escalated, sla_deadline := some 5 }

/-- Store holding only the overdue escalated complaint. -/
def exDB5 : DB := { complaints := [exC5], escalations := [], slas := [] }

/-- An overdue PENDING complaint: deadline 4, not yet marked breached. -/
def exC8 : Complaint := { exComplaint with sla_deadline := some 4 }

/-- Store holding only the overdue pending complaint. -/
def exDB8 : DB := { complaints := [exC8], escalations := [], slas := [] }

/-- A complaint already assigned to staff 9. -/
def exAssigned : Complaint := { exComplaint with id := 5, assigned_staff := some 9 }

/-- Store holding the assigned complaint. -/
def exDB6 : DB := { complaints := [exAssigned], escalations := [], slas := [] }

/-- Breached pending complaint number 7, with an unresolved escalation
attached in exDB7. -/
def exC7a : Complaint := { exComplaint with id := 7, is_sla_breached := true }

/-- Breached pending complaint number 8, with only a resolved escalation
attached in exDB7. -/
def exC7b : Complaint := { exComplaint with id := 8, is_sla_breached := true }

/-- The unresolved escalation attached to complaint 7. -/
def exEsc7a : Escalation :=
  { complaint_id := 7, escalated_by := none, escalated_to := none,
    reason := Reason.other, resolved := false, resolved_at := none }

/-- The resolved escalation attached to complaint 8. -/
def exEsc7b : Escalation :=
  { complaint_id := 8, escalated_by := none, escalated_to := none,
    reason := Reason.other, resolved := true, resolved_at := some 1 }

/-- Store realising the auto-escalation scenario: one breached complaint
with an active escalation, one with only a resolved escalation. -/
def exDB7 : DB :=
  { complaints := [exC7a, exC7b], escalations := [exEsc7a, exEsc7b], slas := [] }

/-- The C1 counterexample trace: resolve the fresh complaint at time 10,
reopen it at 20, resolve it again at 30. -/
def exC1Trace : DB :=
  (staff_update_complaint
    ((staff_update_complaint
      ((staff_update_complaint exDB1 10 7 1 (exForm Status.resolved)).1)
      20 7 1 (exForm Status.in_progress)).1)
    30 7 1 (exForm Status.resolved)).1

/-- Did the pre_save receiver observe a status change (signals.py line
43)? -/
def statusChanged (old : Option Complaint) (u : Complaint) : Bool :=
  match old with
  | some o => decide (o.status ≠ u.status)
  | none => false

/-- The combined effect of one UPDATE-style save on resolved_at: the
pre_save receiver stamps it on any transition into RESOLVED
(overwriting), and otherwise the save body stamps it when saving in
RESOLVED with it still unset. -/
def stampResolvedAt (old : Option Complaint) (now : Time) (u : Complaint) : Option Time :=
  if statusChanged old u ∧ u.status = Status.resolved then some now
  else if u.status = Status.resolved ∧ u.resolved_at = none then some now
  else u.resolved_at

@[simp] theorem slaStampStep_not_creating (slas : List SLA) (now : Time) (c : Complaint) :
    slaStampStep slas now false c = c := by
  unfold slaStampStep
  simp

theorem resolvedStampStep_status (now : Time) (c : Complaint) :
    (resolvedStampStep now c).status = c.status := by
  unfold resolvedStampStep; split <;> rfl

theorem resolvedStampStep_breached (now : Time) (c : Complaint) :
    (resolvedStampStep now c).is_sla_breached = c.is_sla_breached := by
  unfold resolvedStampStep; split <;> rfl

theorem resolvedStampStep_deadline (now : Time) (c : Complaint) :
    (resolvedStampStep now c).sla_deadline = c.sla_deadline := by
  unfold resolvedStampStep; split <;> rfl

theorem resolvedStampStep_id (now : Time) (c : Complaint) :
    (resolvedStampStep now c).id = c.id := by
  unfold resolvedStampStep; split <;> rfl

theorem resolvedStampStep_staff (now : Time) (c : Complaint) :
    (resolvedStampStep now c).assigned_staff = c.assigned_staff := by
  unfold resolvedStampStep; split <;> rfl

theorem resolvedStampStep_resolved_at (now : Time) (c : Complaint) :
    (resolvedStampStep now c).resolved_at =
      if c.status = Status.resolved ∧ c.resolved_at = none then some now else c.resolved_at := by
  unfold resolvedStampStep; split_ifs <;> rfl

theorem overdueNow_congr (now : Time) (c₁ c₂ : Complaint) (hs : c₁.status = c₂.status)
    (hd : c₁.sla_deadline = c₂.sla_deadline) : overdueNow now c₁ = overdueNow now c₂ := by
  unfold overdueNow; rw [hs, hd]

theorem breachStep_status (now : Time) (c : Complaint) :
    (breachStep now c).status = c.status := by
  unfold breachStep; split <;> rfl

theorem breachStep_resolved_at (now : Time) (c : Complaint) :
    (breachStep now c).resolved_at = c.resolved_at := by
  unfold breachStep; split <;> rfl

theorem breachStep_deadline (now : Time) (c : Complaint) :
    (breachStep now c).sla_deadline = c.sla_deadline := by
  unfold breachStep; split <;> rfl

theorem breachStep_id (now : Time) (c : Complaint) :
    (breachStep now c).id = c.id := by
  unfold breachStep; split <;> rfl

theorem breachStep_staff (now : Time) (c : Complaint) :
    (breachStep now c).assigned_staff = c.assigned_staff := by
  unfold breachStep; split <;> rfl

theorem breachStep_breached (now : Time) (c : Complaint) :
    (breachStep now c).is_sla_breached = (c.is_sla_breached || overdueNow now c) := by
  unfold breachStep
  by_cases h : overdueNow now c <;> simp [h]

theorem complaintPreSave_status (old : Option Complaint) (now : Time) (c : Complaint) :
    (complaintPreSave old now c).status = c.status := by
  cases old with
  | none => rfl
  | some o =>
      simp only [complaintPreSave]
      split <;> rfl

theorem complaintPreSave_breached (old : Option Complaint) (now : Time) (c : Complaint) :
    (complaintPreSave old now c).is_sla_breached = c.is_sla_breached := by
  cases old with
  | none => rfl
  | some o =>
      simp only [complaintPreSave]
      split <;> rfl

theorem complaintPreSave_deadline (old : Option Complaint) (now : Time) (c : Complaint) :
    (complaintPreSave old now c).sla_deadline = c.sla_deadline := by
  cases old with
  | none => rfl
  | some o =>
      simp only [complaintPreSave]
      split <;> rfl

theorem complaintPreSave_id (old : Option Complaint) (now : Time) (c : Complaint) :
    (complaintPreSave old now c).id = c.id := by
  cases old with
  | none => rfl
  | some o =>
      simp only [complaintPreSave]
      split <;> rfl

theorem complaintPreSave_staff (old : Option Complaint) (now : Time) (c : Complaint) :
    (complaintPreSave old now c).assigned_staff = c.assigned_staff := by
  cases old with
  | none => rfl
  | some o =>
      simp only [complaintPreSave]
      split <;> rfl

theorem complaintPreSave_resolved_at (old : Option Complaint) (now : Time) (c : Complaint) :
    (complaintPreSave old now c).resolved_at =
      if statusChanged old c ∧ c.status = Status.resolved then some now else c.resolved_at := by
  cases old with
  | none => simp [complaintPreSave, statusChanged]
  | some o =>
      simp only [complaintPreSave, statusChanged]
      by_cases h1 : o.status = c.status
      · simp [h1]
      · by_cases h2 : c.status = Status.resolved
        · have h1' : ¬o.status = Status.resolved := by rw [h2] at h1; exact h1
          simp [h1', h2]
        · simp [h1, h2]

theorem statusChanged_congr (old : Option Complaint) (c₁ c₂ : Complaint)
    (hs : c₁.status = c₂.status) : statusChanged old c₁ = statusChanged old c₂ := by
  unfold statusChanged; cases old <;> simp [hs]

theorem saveInstance_status (slas : List SLA) (old : Option Complaint) (now : Time)
    (u : Complaint) : (saveInstance slas old now u).status = u.status := by
  unfold saveInstance complaintSaveBody
  rw [complaintPreSave_status, breachStep_status, slaStampStep_not_creating,
    resolvedStampStep_status]

theorem saveInstance_id (slas : List SLA) (old : Option Complaint) (now : Time)
    (u : Complaint) : (saveInstance slas old now u).id = u.id := by
  unfold saveInstance complaintSaveBody
  rw [complaintPreSave_id, breachStep_id, slaStampStep_not_creating, resolvedStampStep_id]

theorem saveInstance_staff (slas : List SLA) (old : Option Complaint) (now : Time)
    (u : Complaint) : (saveInstance slas old now u).assigned_staff = u.assigned_staff := by
  unfold saveInstance complaintSaveBody
  rw [complaintPreSave_staff, breachStep_staff, slaStampStep_not_creating,
    resolvedStampStep_staff]

theorem saveInstance_deadline (slas : List SLA) (old : Option Complaint) (now : Time)
    (u : Complaint) : (saveInstance slas old now u).sla_deadline = u.sla_deadline := by
  unfold saveInstance complaintSaveBody
  rw [complaintPreSave_deadline, breachStep_deadline, slaStampStep_not_creating,
    resolvedStampStep_deadline]

theorem saveInstance_breached (slas : List SLA) (old : Option Complaint) (now : Time)
    (u : Complaint) :
    (saveInstance slas old now u).is_sla_breached = (u.is_sla_breached || overdueNow now u) := by
  unfold saveInstance complaintSaveBody
  rw [complaintPreSave_breached, breachStep_breached, slaStampStep_not_creating,
    resolvedStampStep_breached,
    overdueNow_congr now (resolvedStampStep now u) u (resolvedStampStep_status now u)
      (resolvedStampStep_deadline now u)]

theorem saveInstance_resolved_at (slas : List SLA) (old : Option Complaint) (now : Time)
    (u : Complaint) : (saveInstance slas old now u).resolved_at = stampResolvedAt old now u := by
  unfold saveInstance complaintSaveBody
  rw [complaintPreSave_resolved_at, breachStep_resolved_at, breachStep_status,
    slaStampStep_not_creating, resolvedStampStep_resolved_at, resolvedStampStep_status,
    statusChanged_congr old (breachStep now (resolvedStampStep now u)) u
      (by rw [breachStep_status, resolvedStampStep_status])]
  unfold stampResolvedAt
  rfl

theorem saveComplaint_complaints (db : DB) (now : Time) (u : Complaint) (fields : UpdateFields) :
    (saveComplaint db now u fields).complaints =
      updateById db.complaints u.id
        (fun o => persistFields fields o (saveInstance db.slas (getC db u.id) now u)) := rfl

theorem saveComplaint_escalations (db : DB) (now : Time) (u : Complaint)
    (fields : UpdateFields) : (saveComplaint db now u fields).escalations = db.escalations := rfl

theorem saveComplaint_slas (db : DB) (now : Time) (u : Complaint) (fields : UpdateFields) :
    (saveComplaint db now u fields).slas = db.slas := rfl

theorem persistFields_id (fields : UpdateFields) (o c2 : Complaint) (h : c2.id = o.id) :
    (persistFields fields o c2).id = o.id := by
  cases fields <;> simp [persistFields, h]

theorem find_updateById (cid' : Nat) (g : Complaint → Complaint)
    (hg : ∀ c : Complaint, c.id = cid' → (g c).id = cid') (cid : Nat) (l : List Complaint) :
    (updateById l cid' g).find? (fun o => o.id == cid) =
      if cid' = cid then (l.find? (fun o => o.id == cid)).map g
      else l.find? (fun o => o.id == cid) := by
  induction l with
  | nil =>
      unfold updateById
      simp only [List.map_nil, List.find?_nil, Option.map_none]
      split <;> rfl
  | cons a l ih =>
      unfold updateById at *
      simp only [List.map_cons]
      by_cases ha : a.id = cid'
      · rw [if_pos (by simpa using ha)]
        by_cases hcc : cid' = cid
        · have h1 : ((g a).id == cid) = true := by
            simp only [beq_iff_eq]
            rw [hg a ha]; exact hcc
          have h2 : (a.id == cid) = true := by
            simp only [beq_iff_eq]
            rw [ha]; exact hcc
          rw [if_pos hcc]
          simp only [List.find?_cons, h1, h2]
          rfl
        · have h1 : ((g a).id == cid) = false := by
            simp only [beq_eq_false_iff_ne, ne_eq]
            rw [hg a ha]; exact hcc
          have h2 : (a.id == cid) = false := by
            simp only [beq_eq_false_iff_ne, ne_eq]
            rw [ha]; exact hcc
          rw [if_neg hcc] at ih ⊢
          simp only [List.find?_cons, h1, h2]
          exact ih
      · rw [if_neg (by simpa using ha)]
        by_cases hac : a.id = cid
        · have h2 : (a.id == cid) = true := by simpa using hac
          have hcc : ¬cid' = cid := fun h => ha (hac.trans h.symm)
          rw [if_neg hcc]
          simp only [List.find?_cons, h2]
        · have h2 : (a.id == cid) = false := by
            simp only [beq_eq_false_iff_ne, ne_eq]
            exact hac
          simp only [List.find?_cons, h2]
          exact ih

theorem getC_saveComplaint (db : DB) (now : Time) (u : Complaint) (fields : UpdateFields)
    (cid : Nat) :
    getC (saveComplaint db now u fields) cid =
      if u.id = cid then
        (getC db cid).map
          (fun o => persistFields fields o (saveInstance db.slas (getC db u.id) now u))
      else getC db cid := by
  unfold getC
  rw [saveComplaint_complaints]
  exact find_updateById u.id _
    (fun o ho => ((persistFields_id fields o _ (by rw [saveInstance_id, ho])).trans ho))
    cid db.complaints

theorem getC_mem (db : DB) (cid : Nat) (c : Complaint) (h : getC db cid = some c) :
    c ∈ db.complaints ∧ c.id = cid := by
  unfold getC at h
  exact ⟨List.mem_of_find?_eq_some h, by simpa using List.find?_some h⟩

theorem sweepStep_complaints (db : DB) (now : Time) (c : Complaint) :
    (saveComplaint db now { c with is_sla_breached := true } .breachOnly).complaints =
      updateById db.complaints c.id (fun o => { o with is_sla_breached := true }) := by
  rw [saveComplaint_complaints]
  unfold updateById
  apply List.map_congr_left
  intro o _
  have hb : (saveInstance db.slas (getC db c.id) now { c with is_sla_breached := true }).is_sla_breached = true := by
    rw [saveInstance_breached]
    simp
  by_cases h : (o.id == c.id) = true
  · simp only [h, if_true, persistFields]
    rw [hb]
  · simp [h]

theorem escStep_complaints (db : DB) (now : Time) (c : Complaint) :
    (saveComplaint db now { c with status := Status.escalated } .statusOnly).complaints =
      updateById db.complaints c.id (fun o => { o with status := Status.escalated }) := by
  rw [saveComplaint_complaints]
  unfold updateById
  apply List.map_congr_left
  intro o _
  have hs : (saveInstance db.slas (getC db c.id) now { c with status := Status.escalated }).status = Status.escalated := by
    rw [saveInstance_status]
  by_cases h : (o.id == c.id) = true
  · simp only [h, if_true, persistFields]
    rw [hs]
  · simp [h]

theorem escalationCreate_complaints (db : DB) (now : Time) (c : Complaint) (r : Reason)
    (eb et : Option Nat) :
    (escalationCreate db now c r eb et).complaints =
      updateById db.complaints c.id (fun o => { o with status := Status.escalated }) := by
  unfold escalationCreate
  rw [if_neg (fun h => h rfl)]
  exact escStep_complaints db now c

theorem escalationCreate_escalations (db : DB) (now : Time) (c : Complaint) (r : Reason)
    (eb et : Option Nat) :
    (escalationCreate db now c r eb et).escalations =
      db.escalations ++ [{ complaint_id := c.id, escalated_by := eb, escalated_to := et, reason := r, resolved := false, resolved_at := none }] := by
  unfold escalationCreate
  rw [if_neg (fun h => h rfl)]
  rw [saveComplaint_escalations]

theorem escalationCreate_slas (db : DB) (now : Time) (c : Complaint) (r : Reason)
    (eb et : Option Nat) : (escalationCreate db now c r eb et).slas = db.slas := by
  unfold escalationCreate
  rw [if_neg (fun h => h rfl)]
  rw [saveComplaint_slas]

theorem updateById_map_form (l : List Complaint) (cid : Nat) (g : Complaint → Complaint) :
    updateById l cid g = l.map (fun o => if o.id == cid then g o else o) := rfl

theorem foldl_updateById (g : Complaint → Complaint) (hgid : ∀ o, (g o).id = o.id)
    (hgg : ∀ o, g (g o) = g o) (hs : List Complaint) (l : List Complaint) :
    hs.foldl (fun acc h => updateById acc h.id g) l =
      l.map (fun o => if hs.any (fun h => h.id == o.id) then g o else o) := by
  induction hs generalizing l with
  | nil => simp
  | cons h hs ih =>
      rw [List.foldl_cons, ih, updateById_map_form, List.map_map]
      apply List.map_congr_left
      intro o _
      simp only [Function.comp]
      by_cases hoh : o.id = h.id
      · simp only [show (o.id == h.id) = true by simpa using hoh, if_true]
        have hh : (h.id == o.id) = true := by simpa using hoh.symm
        simp only [List.any_cons, hh, Bool.true_or, if_true]
        rw [hgid]
        by_cases hany : hs.any (fun x => x.id == o.id) = true
        · simp only [hany, if_true]
          exact hgg o
        · simp only [Bool.not_eq_true] at hany
          simp [hany]
      · have hof : (o.id == h.id) = false := by simpa using hoh
        have hh : (h.id == o.id) = false := by simpa using fun e => hoh e.symm
        simp [hof, hh, List.any_cons]

theorem updateById_idem (l : List Complaint) (cid : Nat) (g : Complaint → Complaint)
    (hgid : ∀ o, (g o).id = o.id) (hgg : ∀ o, g (g o) = g o) :
    updateById (updateById l cid g) cid g = updateById l cid g := by
  unfold updateById
  rw [List.map_map]
  apply List.map_congr_left
  intro o _
  simp only [Function.comp]
  by_cases h : (o.id == cid) = true
  · simp only [h, if_true]
    have hgc : ((g o).id == cid) = true := by rw [hgid]; exact h
    simp only [hgc, if_true]
    exact hgg o
  · simp only [Bool.not_eq_true] at h
    simp [h]

theorem find?_map_idpres (f : Complaint → Complaint) (hf : ∀ o, (f o).id = o.id) (cid : Nat)
    (l : List Complaint) :
    (l.map f).find? (fun o => o.id == cid) = (l.find? (fun o => o.id == cid)).map f := by
  induction l with
  | nil => simp
  | cons a l ih =>
      simp only [List.map_cons]
      by_cases h : (a.id == cid) = true
      · have hfa : ((f a).id == cid) = true := by rw [hf]; exact h
        simp only [List.find?_cons, hfa, h]
        rfl
      · have h2 : (a.id == cid) = false := by simpa using h
        have hfa : ((f a).id == cid) = false := by rw [hf]; exact h2
        simp only [List.find?_cons, hfa, h2]
        exact ih

theorem check_fst (db : DB) (now : Time) :
    (check_sla_breaches db now).1 =
      (db.complaints.filter (breachFilter now)).foldl
        (fun acc c => saveComplaint acc now { c with is_sla_breached := true } .breachOnly) db := rfl

theorem check_snd (db : DB) (now : Time) :
    (check_sla_breaches db now).2 = (db.complaints.filter (breachFilter now)).length := rfl

theorem sweep_foldl_complaints (now : Time) (hs : List Complaint) (db : DB) :
    (hs.foldl (fun acc c => saveComplaint acc now { c with is_sla_breached := true } .breachOnly)
        db).complaints =
      hs.foldl (fun l c => updateById l c.id (fun o => { o with is_sla_breached := true }))
        db.complaints := by
  induction hs generalizing db with
  | nil => rfl
  | cons h hs ih => rw [List.foldl_cons, List.foldl_cons, ih, sweepStep_complaints]

theorem sweep_foldl_escalations (now : Time) (hs : List Complaint) (db : DB) :
    (hs.foldl (fun acc c => saveComplaint acc now { c with is_sla_breached := true } .breachOnly)
        db).escalations = db.escalations := by
  induction hs generalizing db with
  | nil => rfl
  | cons h hs ih => rw [List.foldl_cons, ih, saveComplaint_escalations]

theorem sweep_foldl_slas (now : Time) (hs : List Complaint) (db : DB) :
    (hs.foldl (fun acc c => saveComplaint acc now { c with is_sla_breached := true } .breachOnly)
        db).slas = db.slas := by
  induction hs generalizing db with
  | nil => rfl
  | cons h hs ih => rw [List.foldl_cons, ih, saveComplaint_slas]

theorem check_sla_breaches_complaints_raw (db : DB) (now : Time) :
    (check_sla_breaches db now).1.complaints =
      db.complaints.map (fun o =>
        if (db.complaints.filter (breachFilter now)).any (fun h => h.id == o.id) then
          { o with is_sla_breached := true }
        else o) := by
  rw [check_fst, sweep_foldl_complaints]
  exact foldl_updateById (fun o => { o with is_sla_breached := true }) (fun o => rfl)
    (fun o => rfl) _ _

theorem check_sla_breaches_complaints (db : DB) (now : Time)
    (hwf : (db.complaints.map (fun c => c.id)).Nodup) :
    (check_sla_breaches db now).1.complaints =
      db.complaints.map
        (fun o => if breachFilter now o then { o with is_sla_breached := true } else o) := by
  rw [check_sla_breaches_complaints_raw]
  apply List.map_congr_left
  intro o ho
  by_cases hp : breachFilter now o = true
  · have hany : (db.complaints.filter (breachFilter now)).any (fun h => h.id == o.id) = true := by
      rw [List.any_eq_true]
      exact ⟨o, List.mem_filter.mpr ⟨ho, hp⟩, by simp⟩
    simp [hany, hp]
  · have hany : (db.complaints.filter (breachFilter now)).any (fun h => h.id == o.id) = false := by
      rw [Bool.eq_false_iff]
      intro hcon
      rw [List.any_eq_true] at hcon
      obtain ⟨h, hmem, hid⟩ := hcon
      have hmem2 := List.mem_filter.mp hmem
      have heq : h = o := List.inj_on_of_nodup_map hwf hmem2.1 ho (by simpa using hid)
      exact hp (heq ▸ hmem2.2)
    simp only [Bool.not_eq_true] at hp
    simp [hany, hp]

theorem getC_check_sla_breaches (db : DB) (now : Time)
    (hwf : (db.complaints.map (fun c => c.id)).Nodup) (cid : Nat) (c : Complaint)
    (hc : getC db cid = some c) :
    getC (check_sla_breaches db now).1 cid =
      some (if breachFilter now c then { c with is_sla_breached := true } else c) := by
  unfold getC at hc ⊢
  rw [check_sla_breaches_complaints db now hwf,
    find?_map_idpres _ (fun o => by by_cases h : breachFilter now o = true <;> simp [h]) cid, hc]
  rfl

theorem getC_check_raw (db : DB) (now : Time) (cid : Nat) (c : Complaint)
    (hc : getC db cid = some c) :
    ∃ c', getC (check_sla_breaches db now).1 cid = some c' ∧
      (c' = c ∨ c' = { c with is_sla_breached := true }) := by
  unfold getC at hc ⊢
  rw [check_sla_breaches_complaints_raw,
    find?_map_idpres _ (fun o => by
      by_cases h : (db.complaints.filter (breachFilter now)).any (fun x => x.id == o.id) = true <;>
        simp [h]) cid, hc]
  by_cases h : (db.complaints.filter (breachFilter now)).any (fun x => x.id == c.id) = true
  · exact ⟨_, rfl, by simp [h]⟩
  · simp only [Bool.not_eq_true] at h
    exact ⟨_, rfl, by simp [h]⟩

theorem auto_fst (db : DB) (now threshold : Time) :
    (auto_escalate_overdue db now threshold).1 =
      (db.complaints.filter (overdueFilter db now threshold)).foldl
        (fun acc c =>
          saveComplaint (escalationCreate acc now c Reason.sla_breach none none) now
            { c with status := Status.escalated } .statusOnly) db := rfl

theorem auto_snd (db : DB) (now threshold : Time) :
    (auto_escalate_overdue db now threshold).2 =
      (db.complaints.filter (overdueFilter db now threshold)).length := rfl

theorem autoStep_complaints (db : DB) (now : Time) (c : Complaint) :
    (saveComplaint (escalationCreate db now c Reason.sla_breach none none) now
        { c with status := Status.escalated } .statusOnly).complaints =
      updateById db.complaints c.id (fun o => { o with status := Status.escalated }) := by
  rw [escStep_complaints, escalationCreate_complaints,
    updateById_idem _ _ (fun o => { o with status := Status.escalated }) (fun o => rfl)
      (fun o => rfl)]

theorem auto_foldl_complaints (now : Time) (hs : List Complaint) (db : DB) :
    (hs.foldl (fun acc c =>
        saveComplaint (escalationCreate acc now c Reason.sla_breach none none) now
          { c with status := Status.escalated } .statusOnly) db).complaints =
      hs.foldl (fun l c => updateById l c.id (fun o => { o with status := Status.escalated }))
        db.complaints := by
  induction hs generalizing db with
  | nil => rfl
  | cons h hs ih => rw [List.foldl_cons, List.foldl_cons, ih, autoStep_complaints]

theorem auto_foldl_escalations (now : Time) (hs : List Complaint) (db : DB) :
    (hs.foldl (fun acc c =>
        saveComplaint (escalationCreate acc now c Reason.sla_breach none none) now
          { c with status := Status.escalated } .statusOnly) db).escalations =
      db.escalations ++ hs.map (fun c =>
        { complaint_id := c.id, escalated_by := none, escalated_to := none,
          reason := Reason.sla_breach, resolved := false, resolved_at := none }) := by
  induction hs generalizing db with
  | nil => simp
  | cons h hs ih =>
      rw [List.foldl_cons, ih, saveComplaint_escalations, escalationCreate_escalations]
      simp

theorem auto_escalate_complaints_raw (db : DB) (now threshold : Time) :
    (auto_escalate_overdue db now threshold).1.complaints =
      db.complaints.map (fun o =>
        if (db.complaints.filter (overdueFilter db now threshold)).any (fun h => h.id == o.id) then
          { o with status := Status.escalated }
        else o) := by
  rw [auto_fst, auto_foldl_complaints]
  exact foldl_updateById (fun o => { o with status := Status.escalated }) (fun o => rfl)
    (fun o => rfl) _ _

theorem auto_escalate_complaints (db : DB) (now threshold : Time)
    (hwf : (db.complaints.map (fun c => c.id)).Nodup) :
    (auto_escalate_overdue db now threshold).1.complaints =
      db.complaints.map
        (fun o => if overdueFilter db now threshold o then { o with status := Status.escalated }
         else o) := by
  rw [auto_escalate_complaints_raw]
  apply List.map_congr_left
  intro o ho
  by_cases hp : overdueFilter db now threshold o = true
  · have hany : (db.complaints.filter (overdueFilter db now threshold)).any
        (fun h => h.id == o.id) = true := by
      rw [List.any_eq_true]
      exact ⟨o, List.mem_filter.mpr ⟨ho, hp⟩, by simp⟩
    simp [hany, hp]
  · have hany : (db.complaints.filter (overdueFilter db now threshold)).any
        (fun h => h.id == o.id) = false := by
      rw [Bool.eq_false_iff]
      intro hcon
      rw [List.any_eq_true] at hcon
      obtain ⟨h, hmem, hid⟩ := hcon
      have hmem2 := List.mem_filter.mp hmem
      have heq : h = o := List.inj_on_of_nodup_map hwf hmem2.1 ho (by simpa using hid)
      exact hp (heq ▸ hmem2.2)
    simp only [Bool.not_eq_true] at hp
    simp [hany, hp]

theorem getC_auto_escalate (db : DB) (now threshold : Time)
    (hwf : (db.complaints.map (fun c => c.id)).Nodup) (cid : Nat) (c : Complaint)
    (hc : getC db cid = some c) :
    getC (auto_escalate_overdue db now threshold).1 cid =
      some (if overdueFilter db now threshold c then { c with status := Status.escalated }
            else c) := by
  unfold getC at hc ⊢
  rw [auto_escalate_complaints db now threshold hwf,
    find?_map_idpres _
      (fun o => by by_cases h : overdueFilter db now threshold o = true <;> simp [h]) cid, hc]
  rfl

theorem getC_auto_raw (db : DB) (now threshold : Time) (cid : Nat) (c : Complaint)
    (hc : getC db cid = some c) :
    ∃ c', getC (auto_escalate_overdue db now threshold).1 cid = some c' ∧
      (c' = c ∨ c' = { c with status := Status.escalated }) := by
  unfold getC at hc ⊢
  rw [auto_escalate_complaints_raw,
    find?_map_idpres _ (fun o => by
      by_cases h : (db.complaints.filter (overdueFilter db now threshold)).any
          (fun x => x.id == o.id) = true <;>
        simp [h]) cid, hc]
  by_cases h : (db.complaints.filter (overdueFilter db now threshold)).any
      (fun x => x.id == c.id) = true
  · exact ⟨_, rfl, by simp [h]⟩
  · simp only [Bool.not_eq_true] at h
    exact ⟨_, rfl, by simp [h]⟩

theorem appliedForm_id (c : Complaint) (actor : Nat) (f : StatusUpdateForm) :
    (appliedForm c actor f).id = c.id := by
  unfold appliedForm; dsimp only; split <;> rfl

theorem appliedForm_status (c : Complaint) (actor : Nat) (f : StatusUpdateForm) :
    (appliedForm c actor f).status = f.status := by
  unfold appliedForm; dsimp only; split <;> rfl

theorem appliedForm_solution (c : Complaint) (actor : Nat) (f : StatusUpdateForm) :
    (appliedForm c actor f).solution = f.solution := by
  unfold appliedForm; dsimp only; split <;> rfl

theorem appliedForm_deadline (c : Complaint) (actor : Nat) (f : StatusUpdateForm) :
    (appliedForm c actor f).sla_deadline = c.sla_deadline := by
  unfold appliedForm; dsimp only; split <;> rfl

theorem appliedForm_breached (c : Complaint) (actor : Nat) (f : StatusUpdateForm) :
    (appliedForm c actor f).is_sla_breached = c.is_sla_breached := by
  unfold appliedForm; dsimp only; split <;> rfl

theorem appliedForm_resolved_at (c : Complaint) (actor : Nat) (f : StatusUpdateForm) :
    (appliedForm c actor f).resolved_at = c.resolved_at := by
  unfold appliedForm; dsimp only; split <;> rfl

theorem appliedForm_created_at (c : Complaint) (actor : Nat) (f : StatusUpdateForm) :
    (appliedForm c actor f).created_at = c.created_at := by
  unfold appliedForm; dsimp only; split <;> rfl

theorem appliedForm_staff (c : Complaint) (actor : Nat) (f : StatusUpdateForm) :
    (appliedForm c actor f).assigned_staff = some (f.assigned_staff.getD actor) := by
  unfold appliedForm
  cases hf : f.assigned_staff with
  | none => simp [hf]
  | some x => simp [hf]

theorem getC_staff_update_self (db : DB) (now : Time) (actor cid0 : Nat) (f : StatusUpdateForm)
    (c0 : Complaint) (hc : getC db cid0 = some c0)
    (hguard : ¬(c0.assigned_staff.isSome ∧ c0.assigned_staff ≠ some actor)) :
    (staff_update_complaint db now actor cid0 f).2 = UpdateOutcome.updated ∧
    getC (staff_update_complaint db now actor cid0 f).1 cid0 =
      some (saveInstance db.slas (some c0) now (appliedForm c0 actor f)) := by
  have hid : c0.id = cid0 := (getC_mem db cid0 c0 hc).2
  unfold staff_update_complaint
  simp only [hc]
  rw [if_neg hguard]
  refine ⟨rfl, ?_⟩
  rw [getC_saveComplaint]
  rw [appliedForm_id, hid, hc, if_pos rfl]
  rfl

theorem getC_staff_update_ne (db : DB) (now : Time) (actor cid0 : Nat) (f : StatusUpdateForm)
    (cid : Nat) (hne : cid0 ≠ cid) :
    getC (staff_update_complaint db now actor cid0 f).1 cid = getC db cid := by
  unfold staff_update_complaint
  cases hg : getC db cid0 with
  | none => rfl
  | some c0 =>
      simp only [hg]
      split
      · rfl
      · have hu : (appliedForm c0 actor f).id = cid0 := by
          rw [appliedForm_id]; exact (getC_mem db cid0 c0 hg).2
        rw [getC_saveComplaint, if_neg (fun h => hne (hu ▸ h))]

theorem staff_update_guard_fail (db : DB) (now : Time) (actor cid0 : Nat) (f : StatusUpdateForm)
    (c0 : Complaint) (hc : getC db cid0 = some c0)
    (hguard : c0.assigned_staff.isSome ∧ c0.assigned_staff ≠ some actor) :
    staff_update_complaint db now actor cid0 f = (db, UpdateOutcome.assignedToOther) := by
  unfold staff_update_complaint
  simp only [hc]
  rw [if_pos hguard]

theorem staff_update_notFound (db : DB) (now : Time) (actor cid0 : Nat) (f : StatusUpdateForm)
    (hc : getC db cid0 = none) :
    staff_update_complaint db now actor cid0 f = (db, UpdateOutcome.notFound) := by
  unfold staff_update_complaint
  simp only [hc]

theorem getC_claim_self (db : DB) (now : Time) (actor cid0 : Nat) (c0 : Complaint)
    (hc : getC db cid0 = some c0) (hun : c0.assigned_staff = none) :
    (staff_claim_complaint db now actor cid0).2 = ClaimOutcome.claimed ∧
    getC (staff_claim_complaint db now actor cid0).1 cid0 =
      some (saveInstance db.slas (some c0) now
        { c0 with assigned_staff := some actor, status := Status.in_progress }) := by
  have hid : c0.id = cid0 := (getC_mem db cid0 c0 hc).2
  unfold staff_claim_complaint
  simp only [hc]
  rw [if_neg (by rw [hun]; simp)]
  refine ⟨rfl, ?_⟩
  rw [getC_saveComplaint]
  have hid2 : ({ c0 with assigned_staff := some actor, status := Status.in_progress } : Complaint).id = cid0 := hid
  rw [hid2, hc]
  rw [if_pos rfl]
  rfl

theorem claim_already (db : DB) (now : Time) (actor cid0 : Nat) (c0 : Complaint)
    (hc : getC db cid0 = some c0) (hs : c0.assigned_staff.isSome = true) :
    staff_claim_complaint db now actor cid0 = (db, ClaimOutcome.alreadyAssigned) := by
  unfold staff_claim_complaint
  simp only [hc]
  rw [if_pos hs]

theorem getC_claim_ne (db : DB) (now : Time) (actor cid0 cid : Nat) (hne : cid0 ≠ cid) :
    getC (staff_claim_complaint db now actor cid0).1 cid = getC db cid := by
  unfold staff_claim_complaint
  cases hg : getC db cid0 with
  | none => rfl
  | some c0 =>
      simp only [hg]
      split
      · rfl
      · have hu : ({ c0 with assigned_staff := some actor, status := Status.in_progress } : Complaint).id = cid0 :=
          (getC_mem db cid0 c0 hg).2
        rw [getC_saveComplaint, if_neg (fun h => hne (hu ▸ h))]

theorem getC_escalationCreate (db : DB) (now : Time) (c : Complaint) (r : Reason)
    (eb et : Option Nat) (cid : Nat) :
    getC (escalationCreate db now c r eb et) cid =
      if c.id = cid then
        (getC db cid).map (fun o => { o with status := Status.escalated })
      else getC db cid := by
  unfold getC
  rw [escalationCreate_complaints]
  exact find_updateById c.id (fun o => { o with status := Status.escalated })
    (fun o ho => ho) cid db.complaints

theorem getC_admin_escalate_self (db : DB) (now : Time) (actor cid0 : Nat) (r : Reason)
    (c0 : Complaint) (hc : getC db cid0 = some c0) :
    ∃ c', getC (admin_escalate_complaint db now actor cid0 r) cid0 = some c' ∧
      c'.status = Status.escalated ∧
      (c0.is_sla_breached = true → c'.is_sla_breached = true) ∧
      (c0.sla_deadline = none → c'.is_sla_breached = c0.is_sla_breached) ∧
      c'.resolved_at = c0.resolved_at ∧
      c'.sla_deadline = c0.sla_deadline ∧
      c'.assigned_staff = c0.assigned_staff := by
  have hid : c0.id = cid0 := (getC_mem db cid0 c0 hc).2
  unfold admin_escalate_complaint
  simp only [hc]
  have hu : ({ c0 with status := Status.escalated } : Complaint).id = cid0 := hid
  rw [getC_saveComplaint, hu, if_pos rfl]
  rw [getC_escalationCreate, hid, if_pos rfl, hc]
  simp only [Option.map_some', persistFields]
  refine ⟨_, rfl, ?_, ?_, ?_, ?_, ?_, ?_⟩
  · rw [saveInstance_status]
  · intro hb
    rw [saveInstance_breached]
    simp [hb]
  · intro hd
    rw [saveInstance_breached]
    simp [overdueNow, hd]
  · rw [saveInstance_resolved_at]
    simp [stampResolvedAt]
  · rw [saveInstance_deadline]
  · rw [saveInstance_staff]

theorem getC_admin_escalate_ne (db : DB) (now : Time) (actor cid0 : Nat) (r : Reason)
    (cid : Nat) (hne : cid0 ≠ cid) :
    getC (admin_escalate_complaint db now actor cid0 r) cid = getC db cid := by
  unfold admin_escalate_complaint
  cases hg : getC db cid0 with
  | none => rfl
  | some c0 =>
      simp only [hg]
      have hid : c0.id = cid0 := (getC_mem db cid0 c0 hg).2
      have hu : ({ c0 with status := Status.escalated } : Complaint).id = cid0 := hid
      rw [getC_saveComplaint, if_neg (fun h => hne (hu ▸ h)),
        getC_escalationCreate, if_neg (fun h => hne (hid ▸ h))]

theorem slaStampStep_id (slas : List SLA) (now : Time) (cr : Bool) (c : Complaint) :
    (slaStampStep slas now cr c).id = c.id := by
  unfold slaStampStep
  split
  · split <;> rfl
  · rfl

theorem complaintSaveBody_id (slas : List SLA) (now : Time) (cr : Bool) (c : Complaint) :
    (complaintSaveBody slas now cr c).id = c.id := by
  unfold complaintSaveBody
  rw [breachStep_id, resolvedStampStep_id, slaStampStep_id]

theorem getC_createComplaint_ne (db : DB) (now : Time) (id st : Nat) (cat : Option Nat)
    (pr : Priority) (cid : Nat) (hne : id ≠ cid) :
    getC (createComplaint db now id st cat pr) cid = getC db cid := by
  have hbe : (id == cid) = false := by simpa using hne
  unfold createComplaint
  cases hsla : findActiveSLA db.slas pr with
  | none =>
      simp only [hsla]
      unfold getC
      rw [List.find?_append]
      simp [List.find?_singleton, complaintSaveBody_id, hbe]
  | some sla =>
      simp only [hsla]
      unfold getC
      dsimp only
      rw [find_updateById id
        (fun o => { o with sla_deadline := some (now + sla.resolution_time_hours) })
        (fun o ho => ho) cid _, if_neg hne, List.find?_append]
      simp [List.find?_singleton, complaintSaveBody_id, hbe]

theorem getC_createComplaint_shape (db : DB) (now : Time) (id st : Nat) (cat : Option Nat)
    (pr : Priority) (cid : Nat) (c : Complaint) (hc : getC db cid = some c) :
    ∃ c', getC (createComplaint db now id st cat pr) cid = some c' ∧
      (c' = c ∨ ∃ d, c' = { c with sla_deadline := some d }) := by
  by_cases hne : id = cid
  · unfold createComplaint
    cases hsla : findActiveSLA db.slas pr with
    | none =>
        refine ⟨c, ?_, Or.inl rfl⟩
        simp only [hsla]
        unfold getC at hc ⊢
        rw [List.find?_append, hc]
        rfl
    | some sla =>
        simp only [hsla]
        unfold getC at hc ⊢
        dsimp only
        rw [find_updateById id
          (fun o => { o with sla_deadline := some (now + sla.resolution_time_hours) })
          (fun o ho => ho) cid _, if_pos hne, List.find?_append, hc]
        exact ⟨_, rfl, Or.inr ⟨now + sla.resolution_time_hours, rfl⟩⟩
  · rw [getC_createComplaint_ne db now id st cat pr cid hne]
    exact ⟨c, hc, Or.inl rfl⟩

theorem getC_createComplaint_new (db : DB) (now : Time) (id st : Nat) (cat : Option Nat)
    (pr : Priority) (habs : getC db id = none)
    (hsla : findActiveSLA db.slas pr = none) :
    getC (createComplaint db now id st cat pr) id =
      some { id := id, student := st, assigned_staff := none, category := cat, priority := pr,
             status := Status.pending, solution := none, sla_deadline := none,
             is_sla_breached := false, created_at := now, resolved_at := none } := by
  unfold createComplaint
  simp only [hsla]
  unfold getC at habs ⊢
  rw [List.find?_append, habs]
  have hbody : complaintSaveBody db.slas now true
      { id := id, student := st, assigned_staff := none, category := cat, priority := pr,
        status := Status.pending, solution := none, sla_deadline := none,
        is_sla_breached := false, created_at := now, resolved_at := none } =
      { id := id, student := st, assigned_staff := none, category := cat, priority := pr,
        status := Status.pending, solution := none, sla_deadline := none,
        is_sla_breached := false, created_at := now, resolved_at := none } := by
    unfold complaintSaveBody slaStampStep resolvedStampStep breachStep overdueNow
    simp [hsla]
  rw [hbody]
  simp [List.find?_singleton]

theorem countId_updateById (l : List Complaint) (cid' : Nat) (g : Complaint → Complaint)
    (hg : ∀ o, o.id = cid' → (g o).id = o.id) (cid : Nat) :
    countId (updateById l cid' g) cid = countId l cid := by
  unfold countId updateById
  rw [List.countP_map]
  apply List.countP_congr
  intro o _
  simp only [Function.comp]
  by_cases h : (o.id == cid') = true
  · simp only [h, if_true]
    rw [hg o (by simpa using h)]
  · simp only [Bool.not_eq_true] at h
    simp [h]

theorem countId_map_idpres (l : List Complaint) (f : Complaint → Complaint)
    (hf : ∀ o, (f o).id = o.id) (cid : Nat) :
    countId (l.map f) cid = countId l cid := by
  unfold countId
  rw [List.countP_map]
  apply List.countP_congr
  intro o _
  simp only [Function.comp]
  rw [hf]

theorem length_le_one_mem_eq {α : Type} {l : List α} (h : l.length ≤ 1) {a b : α}
    (ha : a ∈ l) (hb : b ∈ l) : a = b := by
  match l with
  | [] => cases ha
  | [x] =>
      simp only [List.mem_singleton] at ha hb
      rw [ha, hb]
  | x :: y :: t => simp at h

theorem countId_saveComplaint (db : DB) (now : Time) (u : Complaint) (fields : UpdateFields)
    (cid : Nat) :
    countId (saveComplaint db now u fields).complaints cid = countId db.complaints cid := by
  rw [saveComplaint_complaints]
  exact countId_updateById db.complaints u.id _
    (fun o ho => persistFields_id fields o _ (by rw [saveInstance_id, ho])) cid

theorem countId_escalationCreate (db : DB) (now : Time) (c : Complaint) (r : Reason)
    (eb et : Option Nat) (cid : Nat) :
    countId (escalationCreate db now c r eb et).complaints cid = countId db.complaints cid := by
  rw [escalationCreate_complaints]
  exact countId_updateById db.complaints c.id (fun o => { o with status := Status.escalated })
    (fun o _ => rfl) cid

theorem countId_applyOp (db : DB) (t : Time) (op : Op) (cid : Nat)
    (hop : ∀ id0 st cat pr, op = Op.createC id0 st cat pr → id0 ≠ cid) :
    countId (applyOp db t op).complaints cid = countId db.complaints cid := by
  cases op with
  | createC id0 st cat pr =>
      have hne : id0 ≠ cid := hop id0 st cat pr rfl
      have hbe : (id0 == cid) = false := by simpa using hne
      show countId (createComplaint db t id0 st cat pr).complaints cid = countId db.complaints cid
      unfold createComplaint
      cases hsla : findActiveSLA db.slas pr with
      | none =>
          simp only [hsla]
          unfold countId
          simp [List.countP_append, List.countP_cons, complaintSaveBody_id, hbe]
      | some sla =>
          simp only [hsla]
          rw [countId_updateById _ id0
            (fun o => { o with sla_deadline := some (t + sla.resolution_time_hours) })
            (fun o _ => rfl) cid]
          unfold countId
          simp [List.countP_append, List.countP_cons, complaintSaveBody_id, hbe]
  | updateC a cid0 f =>
      show countId (staff_update_complaint db t a cid0 f).1.complaints cid = _
      unfold staff_update_complaint
      cases hg : getC db cid0 with
      | none => rfl
      | some c0 =>
          simp only [hg]
          split
          · rfl
          · exact countId_saveComplaint db t _ .all cid
  | claimC a cid0 =>
      show countId (staff_claim_complaint db t a cid0).1.complaints cid = _
      unfold staff_claim_complaint
      cases hg : getC db cid0 with
      | none => rfl
      | some c0 =>
          simp only [hg]
          split
          · rfl
          · exact countId_saveComplaint db t _ .all cid
  | escalateC a cid0 r =>
      show countId (admin_escalate_complaint db t a cid0 r).complaints cid = _
      unfold admin_escalate_complaint
      cases hg : getC db cid0 with
      | none => rfl
      | some c0 =>
          simp only [hg]
          rw [countId_saveComplaint, countId_escalationCreate]
  | sweep =>
      show countId (check_sla_breaches db t).1.complaints cid = _
      rw [check_sla_breaches_complaints_raw]
      exact countId_map_idpres db.complaints _
        (fun o => by
          by_cases h : (db.complaints.filter (breachFilter t)).any (fun x => x.id == o.id) = true <;>
            simp [h]) cid
  | autoEscalate th =>
      show countId (auto_escalate_overdue db t th).1.complaints cid = _
      rw [auto_escalate_complaints_raw]
      exact countId_map_idpres db.complaints _
        (fun o => by
          by_cases h : (db.complaints.filter (overdueFilter db t th)).any
              (fun x => x.id == o.id) = true <;>
            simp [h]) cid

theorem stampResolvedAt_cases (old : Option Complaint) (now : Time) (u : Complaint) :
    stampResolvedAt old now u = some now ∨ stampResolvedAt old now u = u.resolved_at := by
  unfold stampResolvedAt
  split_ifs <;> simp

theorem stampResolvedAt_of_not_resolved (old : Option Complaint) (now : Time) (u : Complaint)
    (h : ¬u.status = Status.resolved) : stampResolvedAt old now u = u.resolved_at := by
  unfold stampResolvedAt
  rw [if_neg (fun hh => h hh.2), if_neg (fun hh => h hh.1)]

theorem stampResolvedAt_of_resolved_none (old : Option Complaint) (now : Time) (u : Complaint)
    (h : u.status = Status.resolved) (hn : u.resolved_at = none) :
    stampResolvedAt old now u = some now := by
  unfold stampResolvedAt
  split_ifs with h1 h2
  · rfl
  · rfl
  · exact absurd ⟨h, hn⟩ h2

theorem getC_applyOp_shape (db : DB) (t : Time) (op : Op) (cid : Nat) (c : Complaint)
    (hc : getC db cid = some c) :
    ∃ c', getC (applyOp db t op) cid = some c' ∧
      (c.is_sla_breached = true → c'.is_sla_breached = true) ∧
      (∀ r, c.resolved_at = some r → ∃ q, c'.resolved_at = some q) ∧
      (c.resolved_at = none →
        c'.resolved_at = none ∨
          ∃ a f, op = Op.updateC a cid f ∧ f.status = Status.resolved ∧
            c'.resolved_at = some t) := by
  cases op with
  | createC id0 st cat pr =>
      simp only [applyOp]
      obtain ⟨c', h1, hcase⟩ := getC_createComplaint_shape db t id0 st cat pr cid c hc
      rcases hcase with rfl | ⟨d, rfl⟩
      · exact ⟨_, h1, fun hb => hb, fun r hr => ⟨r, hr⟩, fun hn => Or.inl hn⟩
      · exact ⟨_, h1, fun hb => hb, fun r hr => ⟨r, hr⟩, fun hn => Or.inl hn⟩
  | updateC a cid0 f =>
      simp only [applyOp]
      by_cases he : cid0 = cid
      · subst he
        by_cases hguard : c.assigned_staff.isSome ∧ c.assigned_staff ≠ some a
        · rw [staff_update_guard_fail db t a cid0 f c hc hguard]
          exact ⟨c, hc, fun hb => hb, fun r hr => ⟨r, hr⟩, fun hn => Or.inl hn⟩
        · obtain ⟨hout, hval⟩ := getC_staff_update_self db t a cid0 f c hc hguard
          refine ⟨_, hval, ?_, ?_, ?_⟩
          · intro hb
            rw [saveInstance_breached, appliedForm_breached, hb]
            rfl
          · intro r hr
            rw [saveInstance_resolved_at]
            rcases stampResolvedAt_cases (some c) t (appliedForm c a f) with h | h
            · exact ⟨t, h⟩
            · rw [h, appliedForm_resolved_at]
              exact ⟨r, hr⟩
          · intro hn
            by_cases hres : f.status = Status.resolved
            · refine Or.inr ⟨a, f, rfl, hres, ?_⟩
              rw [saveInstance_resolved_at,
                stampResolvedAt_of_resolved_none _ _ _
                  (by rw [appliedForm_status]; exact hres)
                  (by rw [appliedForm_resolved_at]; exact hn)]
            · refine Or.inl ?_
              rw [saveInstance_resolved_at,
                stampResolvedAt_of_not_resolved _ _ _
                  (by rw [appliedForm_status]; exact hres),
                appliedForm_resolved_at]
              exact hn
      · rw [getC_staff_update_ne db t a cid0 f cid he]
        exact ⟨c, hc, fun hb => hb, fun r hr => ⟨r, hr⟩, fun hn => Or.inl hn⟩
  | claimC a cid0 =>
      simp only [applyOp]
      by_cases he : cid0 = cid
      · subst he
        cases hstaff : c.assigned_staff with
        | some x =>
            rw [claim_already db t a cid0 c hc (by rw [hstaff]; rfl)]
            exact ⟨c, hc, fun hb => hb, fun r hr => ⟨r, hr⟩, fun hn => Or.inl hn⟩
        | none =>
            obtain ⟨hout, hval⟩ := getC_claim_self db t a cid0 c hc hstaff
            refine ⟨_, hval, ?_, ?_, ?_⟩
            · intro hb
              rw [saveInstance_breached]
              simp [hb]
            · intro r hr
              rw [saveInstance_resolved_at,
                stampResolvedAt_of_not_resolved _ _ _ (by intro hcon; cases hcon)]
              exact ⟨r, hr⟩
            · intro hn
              refine Or.inl ?_
              rw [saveInstance_resolved_at,
                stampResolvedAt_of_not_resolved _ _ _ (by intro hcon; cases hcon)]
              exact hn
      · rw [getC_claim_ne db t a cid0 cid he]
        exact ⟨c, hc, fun hb => hb, fun r hr => ⟨r, hr⟩, fun hn => Or.inl hn⟩
  | escalateC a cid0 r =>
      simp only [applyOp]
      by_cases he : cid0 = cid
      · subst he
        obtain ⟨c', hval, hst, hmono, hdn, hres, hdl, hstf⟩ :=
          getC_admin_escalate_self db t a cid0 r c hc
        exact ⟨c', hval, hmono, fun q hq => ⟨q, by rw [hres]; exact hq⟩,
          fun hn => Or.inl (by rw [hres]; exact hn)⟩
      · rw [getC_admin_escalate_ne db t a cid0 r cid he]
        exact ⟨c, hc, fun hb => hb, fun r hr => ⟨r, hr⟩, fun hn => Or.inl hn⟩
  | sweep =>
      simp only [applyOp]
      obtain ⟨c', h1, hcase⟩ := getC_check_raw db t cid c hc
      rcases hcase with rfl | rfl
      · exact ⟨_, h1, fun hb => hb, fun r hr => ⟨r, hr⟩, fun hn => Or.inl hn⟩
      · exact ⟨_, h1, fun _ => rfl, fun r hr => ⟨r, hr⟩, fun hn => Or.inl hn⟩
  | autoEscalate th =>
      simp only [applyOp]
      obtain ⟨c', h1, hcase⟩ := getC_auto_raw db t th cid c hc
      rcases hcase with rfl | rfl
      · exact ⟨_, h1, fun hb => hb, fun r hr => ⟨r, hr⟩, fun hn => Or.inl hn⟩
      · exact ⟨_, h1, fun hb => hb, fun r hr => ⟨r, hr⟩, fun hn => Or.inl hn⟩

theorem runOps_shape (ops : List (Time × Op)) : ∀ (db : DB) (cid : Nat) (c : Complaint),
    getC db cid = some c →
    ∃ c', getC (runOps db ops) cid = some c' ∧
      (c.is_sla_breached = true → c'.is_sla_breached = true) ∧
      (∀ r, c.resolved_at = some r → ∃ q, c'.resolved_at = some q) := by
  induction ops with
  | nil =>
      intro db cid c hc
      exact ⟨c, hc, fun hb => hb, fun r hr => ⟨r, hr⟩⟩
  | cons p ops ih =>
      intro db cid c hc
      obtain ⟨t, op⟩ := p
      obtain ⟨c1, h1, hmono, hres, _⟩ := getC_applyOp_shape db t op cid c hc
      obtain ⟨c', h2, hmono2, hres2⟩ := ih (applyOp db t op) cid c1 h1
      refine ⟨c', h2, fun hb => hmono2 (hmono hb), fun r hr => ?_⟩
      obtain ⟨q, hq⟩ := hres r hr
      exact hres2 q hq

theorem sweep_no_hit_id (db : DB) (t : Time) (cid : Nat) (c : Complaint)
    (hc : getC db cid = some c) (hd : c.sla_deadline = none)
    (hone : countId db.complaints cid ≤ 1) :
    (db.complaints.filter (breachFilter t)).any (fun h => h.id == cid) = false := by
  obtain ⟨hcmem, hcid⟩ := getC_mem db cid c hc
  rw [Bool.eq_false_iff]
  intro hcon
  rw [List.any_eq_true] at hcon
  obtain ⟨h, hmem, hid⟩ := hcon
  have hmem2 := List.mem_filter.mp hmem
  have hid2 : h.id = cid := by simpa using hid
  have hlen : (db.complaints.filter (fun o => o.id == cid)).length ≤ 1 := by
    rw [← List.countP_eq_length_filter]
    exact hone
  have hhmem : h ∈ db.complaints.filter (fun o => o.id == cid) :=
    List.mem_filter.mpr ⟨hmem2.1, by simpa using hid2⟩
  have hcmem2 : c ∈ db.complaints.filter (fun o => o.id == cid) :=
    List.mem_filter.mpr ⟨hcmem, by simpa using hcid⟩
  have heq : h = c := length_le_one_mem_eq hlen hhmem hcmem2
  have : breachFilter t c = true := heq ▸ hmem2.2
  rw [breachFilter, hd] at this
  simp at this

theorem getC_applyOp_nullDeadline (db : DB) (t : Time) (op : Op) (cid : Nat) (c : Complaint)
    (hc : getC db cid = some c) (hd : c.sla_deadline = none) (hb : c.is_sla_breached = false)
    (hone : countId db.complaints cid ≤ 1)
    (hop : ∀ id0 st cat pr, op = Op.createC id0 st cat pr → id0 ≠ cid) :
    ∃ c', getC (applyOp db t op) cid = some c' ∧ c'.sla_deadline = none ∧
      c'.is_sla_breached = false := by
  cases op with
  | createC id0 st cat pr =>
      simp only [applyOp]
      rw [getC_createComplaint_ne db t id0 st cat pr cid (hop id0 st cat pr rfl)]
      exact ⟨c, hc, hd, hb⟩
  | updateC a cid0 f =>
      simp only [applyOp]
      by_cases he : cid0 = cid
      · subst he
        by_cases hguard : c.assigned_staff.isSome ∧ c.assigned_staff ≠ some a
        · rw [staff_update_guard_fail db t a cid0 f c hc hguard]
          exact ⟨c, hc, hd, hb⟩
        · obtain ⟨hout, hval⟩ := getC_staff_update_self db t a cid0 f c hc hguard
          refine ⟨_, hval, ?_, ?_⟩
          · rw [saveInstance_deadline, appliedForm_deadline]
            exact hd
          · rw [saveInstance_breached, appliedForm_breached, hb]
            simp [overdueNow, appliedForm_deadline, hd]
      · rw [getC_staff_update_ne db t a cid0 f cid he]
        exact ⟨c, hc, hd, hb⟩
  | claimC a cid0 =>
      simp only [applyOp]
      by_cases he : cid0 = cid
      · subst he
        cases hstaff : c.assigned_staff with
        | some x =>
            rw [claim_already db t a cid0 c hc (by rw [hstaff]; rfl)]
            exact ⟨c, hc, hd, hb⟩
        | none =>
            obtain ⟨hout, hval⟩ := getC_claim_self db t a cid0 c hc hstaff
            refine ⟨_, hval, ?_, ?_⟩
            · rw [saveInstance_deadline]
              exact hd
            · rw [saveInstance_breached]
              simp [overdueNow, hd, hb]
      · rw [getC_claim_ne db t a cid0 cid he]
        exact ⟨c, hc, hd, hb⟩
  | escalateC a cid0 r =>
      simp only [applyOp]
      by_cases he : cid0 = cid
      · subst he
        obtain ⟨c', hval, hst, hmono, hdn, hres, hdl, hstf⟩ :=
          getC_admin_escalate_self db t a cid0 r c hc
        exact ⟨c', hval, by rw [hdl]; exact hd, by rw [hdn hd]; exact hb⟩
      · rw [getC_admin_escalate_ne db t a cid0 r cid he]
        exact ⟨c, hc, hd, hb⟩
  | sweep =>
      simp only [applyOp]
      have hany := sweep_no_hit_id db t cid c hc hd hone
      unfold getC at hc ⊢
      rw [check_sla_breaches_complaints_raw,
        find?_map_idpres _ (fun o => by
          by_cases h : (db.complaints.filter (breachFilter t)).any (fun x => x.id == o.id) = true <;>
            simp [h]) cid, hc]
      have hcid : c.id = cid := (getC_mem db cid c (by exact hc)).2
      rw [Option.map_some']
      rw [hcid, hany]
      exact ⟨c, by simp, hd, hb⟩
  | autoEscalate th =>
      simp only [applyOp]
      obtain ⟨c', h1, hcase⟩ := getC_auto_raw db t th cid c hc
      rcases hcase with rfl | rfl
      · exact ⟨_, h1, hd, hb⟩
      · exact ⟨_, h1, hd, hb⟩

theorem runOps_nullDeadline (ops : List (Time × Op)) : ∀ (db : DB) (cid : Nat) (c : Complaint),
    getC db cid = some c → c.sla_deadline = none → c.is_sla_breached = false →
    countId db.complaints cid ≤ 1 →
    (∀ p ∈ ops, ∀ id0 st cat pr, p.2 = Op.createC id0 st cat pr → id0 ≠ cid) →
    ∃ c', getC (runOps db ops) cid = some c' ∧ c'.sla_deadline = none ∧
      c'.is_sla_breached = false := by
  induction ops with
  | nil =>
      intro db cid c hc hd hb _ _
      exact ⟨c, hc, hd, hb⟩
  | cons p ops ih =>
      intro db cid c hc hd hb hone hops
      obtain ⟨t, op⟩ := p
      obtain ⟨c1, h1, hd1, hb1⟩ := getC_applyOp_nullDeadline db t op cid c hc hd hb hone
        (fun id0 st cat pr hcr => hops (t, op) (List.mem_cons_self _ _) id0 st cat pr hcr)
      have hone1 : countId (applyOp db t op).complaints cid ≤ 1 := by
        rw [countId_applyOp db t op cid
          (fun id0 st cat pr hcr => hops (t, op) (List.mem_cons_self _ _) id0 st cat pr hcr)]
        exact hone
      exact ih (applyOp db t op) cid c1 h1 hd1 hb1 hone1
        (fun q hq => hops q (List.mem_cons_of_mem _ hq))

/-- C1, counterexample.  The claim says resolved_at is stamped once, on
the first save with status RESOLVED, and is never overwritten even if
status later moves away from RESOLVED and back.  On the code, the
pre_save receiver re-stamps resolved_at on every transition into
RESOLVED: resolving the fresh complaint at time 10 stamps 10, but
reopening it at 20 and resolving again at 30 overwrites the stamp with
30. -/
theorem C1_counterexample :
    (getC (staff_update_complaint exDB1 10 7 1 (exForm Status.resolved)).1 1).map
        (fun c => c.resolved_at) = some (some 10) ∧
    (getC exC1Trace 1).map (fun c => c.resolved_at) = some (some 30) ∧
    ¬((getC exC1Trace 1).map (fun c => c.resolved_at) = some (some 10)) := by
  decide

/-- C1, amended.  resolved_at is null until the first save whose status
is RESOLVED; such a save stamps it with the current time; no core
operation ever clears it back to null; but it is not write-once: a staff
update whose status transitions from a non-RESOLVED status into RESOLVED
re-stamps resolved_at with that save's time.  Part one characterises the
staff update exactly; part two is never-cleared over every sequence of
core operations; part three is null-preservation under every operation
that is not a resolving update of the complaint. -/
theorem C1_resolved_at_amended :
    (∀ (db : DB) (now : Time) (actor cid : Nat) (f : StatusUpdateForm) (c : Complaint),
      getC db cid = some c →
      ¬(c.assigned_staff.isSome ∧ c.assigned_staff ≠ some actor) →
      ∃ c', getC (staff_update_complaint db now actor cid f).1 cid = some c' ∧
        c'.resolved_at =
          (if f.status = Status.resolved ∧ (c.resolved_at = none ∨ ¬c.status = Status.resolved)
           then some now else c.resolved_at)) ∧
    (∀ (db : DB) (ops : List (Time × Op)) (cid : Nat) (c : Complaint) (r : Time),
      getC db cid = some c → c.resolved_at = some r →
      ∃ c' q, getC (runOps db ops) cid = some c' ∧ c'.resolved_at = some q) ∧
    (∀ (db : DB) (t : Time) (op : Op) (cid : Nat) (c : Complaint),
      getC db cid = some c → c.resolved_at = none →
      (∀ a f, op = Op.updateC a cid f → ¬f.status = Status.resolved) →
      ∃ c', getC (applyOp db t op) cid = some c' ∧ c'.resolved_at = none) := by
  refine ⟨?_, ?_, ?_⟩
  · intro db now actor cid f c hc hguard
    obtain ⟨hout, hval⟩ := getC_staff_update_self db now actor cid f c hc hguard
    refine ⟨_, hval, ?_⟩
    rw [saveInstance_resolved_at]
    unfold stampResolvedAt statusChanged
    rw [appliedForm_status, appliedForm_resolved_at]
    by_cases hf : f.status = Status.resolved
    · by_cases hcs : c.status = Status.resolved
      · by_cases hn : c.resolved_at = none
        · simp [hf, hcs, hn]
        · simp [hf, hcs, hn]
      · simp [hf, hcs]
    · simp [hf]
  · intro db ops cid c r hc hr
    obtain ⟨c', h2, _, hres⟩ := runOps_shape ops db cid c hc
    obtain ⟨q, hq⟩ := hres r hr
    exact ⟨c', q, h2, hq⟩
  · intro db t op cid c hc hn hnotres
    obtain ⟨c', h1, _, _, hnull⟩ := getC_applyOp_shape db t op cid c hc
    rcases hnull hn with h | ⟨a, f, hop, hfres, _⟩
    · exact ⟨c', h1, h⟩
    · exact absurd hfres (hnotres a f hop)

/-- C1, witness for the amended theorem: resolving the fresh complaint at
time 10 stamps resolved_at with 10 (part one at a concrete input). -/
theorem C1_witness :
    ∃ c', getC (staff_update_complaint exDB1 10 7 1 (exForm Status.resolved)).1 1 = some c' ∧
      c'.resolved_at =
        (if (exForm Status.resolved).status = Status.resolved ∧
            (exComplaint.resolved_at = none ∨ ¬exComplaint.status = Status.resolved)
         then some 10 else exComplaint.resolved_at) :=
  C1_resolved_at_amended.1 exDB1 10 7 1 (exForm Status.resolved) exComplaint (by decide)
    (by decide)

/-- C2: is_sla_breached is monotonic.  Every core operation (create,
staff update, claim, escalate, breach sweep, auto-escalation) either
leaves a complaint's is_sla_breached unchanged or raises it from false to
true, and across any sequence of core operations a complaint that is
breached stays breached. -/
theorem C2_breach_monotonic :
    (∀ (db : DB) (t : Time) (op : Op) (cid : Nat) (c : Complaint),
      getC db cid = some c →
      ∃ c', getC (applyOp db t op) cid = some c' ∧
        (c'.is_sla_breached = c.is_sla_breached ∨
          (c.is_sla_breached = false ∧ c'.is_sla_breached = true))) ∧
    (∀ (db : DB) (ops : List (Time × Op)) (cid : Nat) (c : Complaint),
      getC db cid = some c → c.is_sla_breached = true →
      ∃ c', getC (runOps db ops) cid = some c' ∧ c'.is_sla_breached = true) := by
  constructor
  · intro db t op cid c hc
    obtain ⟨c', h1, hmono, _, _⟩ := getC_applyOp_shape db t op cid c hc
    refine ⟨c', h1, ?_⟩
    cases hcb : c.is_sla_breached with
    | true => exact Or.inl (hmono hcb)
    | false =>
        cases hcb' : c'.is_sla_breached with
        | false => exact Or.inl rfl
        | true => exact Or.inr ⟨rfl, rfl⟩
  · intro db ops cid c hc hb
    obtain ⟨c', h2, hmono, _⟩ := runOps_shape ops db cid c hc
    exact ⟨c', h2, hmono hb⟩

/-- C2, witness: marking the already-breached complaint through a sweep
at time 1 and then running a claim keeps the flag true. -/
theorem C2_witness :
    (∃ c', getC (applyOp exDB2 1 Op.sweep) 1 = some c' ∧
      (c'.is_sla_breached = ({ exComplaint with is_sla_breached := true } : Complaint).is_sla_breached ∨
        (({ exComplaint with is_sla_breached := true } : Complaint).is_sla_breached = false ∧
          c'.is_sla_breached = true))) ∧
    (∃ c', getC (runOps exDB2 [(1, Op.sweep), (2, Op.claimC 7 1)]) 1 = some c' ∧
      c'.is_sla_breached = true) :=
  ⟨C2_breach_monotonic.1 exDB2 1 Op.sweep 1 { exComplaint with is_sla_breached := true }
      (by decide),
   C2_breach_monotonic.2 exDB2 [(1, Op.sweep), (2, Op.claimC 7 1)] 1
      { exComplaint with is_sla_breached := true } (by decide) (by decide)⟩

/-- C3: creating an Escalation record for a complaint in any prior status
(including RESOLVED and CLOSED) synchronously sets and persists that
complaint's status to ESCALATED, and appends the escalation record; the
admin escalate view therefore leaves the complaint ESCALATED as soon as
it returns. -/
theorem C3_escalation_forces_status :
    (∀ (db : DB) (now : Time) (c c0 : Complaint) (r : Reason) (eb et : Option Nat),
      getC db c.id = some c0 →
      ∃ c', getC (escalationCreate db now c r eb et) c.id = some c' ∧
        c'.status = Status.escalated ∧
        (escalationCreate db now c r eb et).escalations =
          db.escalations ++ [{ complaint_id := c.id, escalated_by := eb, escalated_to := et, reason := r, resolved := false, resolved_at := none }]) ∧
    (∀ (db : DB) (now : Time) (actor cid : Nat) (r : Reason) (c0 : Complaint),
      getC db cid = some c0 →
      ∃ c', getC (admin_escalate_complaint db now actor cid r) cid = some c' ∧
        c'.status = Status.escalated) := by
  constructor
  · intro db now c c0 r eb et hc
    rw [getC_escalationCreate, if_pos rfl, hc]
    exact ⟨_, rfl, rfl, escalationCreate_escalations db now c r eb et⟩
  · intro db now actor cid r c0 hc
    obtain ⟨c', hval, hst, _⟩ := getC_admin_escalate_self db now actor cid r c0 hc
    exact ⟨c', hval, hst⟩

/-- C3, witness: escalating the complaint that is already RESOLVED leaves
it ESCALATED, and the record is appended. -/
theorem C3_witness :
    (∃ c', getC (escalationCreate exDB3 9 exResolved Reason.other (some 99) none)
        exResolved.id = some c' ∧
      c'.status = Status.escalated ∧
      (escalationCreate exDB3 9 exResolved Reason.other (some 99) none).escalations =
        exDB3.escalations ++ [{ complaint_id := exResolved.id, escalated_by := some 99, escalated_to := none, reason := Reason.other, resolved := false, resolved_at := none }]) ∧
    (∃ c', getC (admin_escalate_complaint exDB3 9 99 1 Reason.other) 1 = some c' ∧
      c'.status = Status.escalated) :=
  ⟨C3_escalation_forces_status.1 exDB3 9 exResolved exResolved Reason.other (some 99) none
      (by decide),
   C3_escalation_forces_status.2 exDB3 9 99 1 Reason.other exResolved (by decide)⟩

/-- C4: tasks.py assign_pending_complaints crashes whenever there is
anything to assign.  tasks.py reads models.Count and models.Q but never
imports django.db.models, so as soon as one unassigned PENDING complaint
exists, building the staff queryset raises NameError before any
assignment happens; only the empty case returns 0 as the claim
describes. -/
theorem C4_assign_pending_raises :
    assign_pending_complaints exDB1 = Except.error TaskError.nameErrorModels ∧
    assign_pending_complaints exDBempty = Except.ok (exDBempty, 0) :=
  ⟨rfl, rfl⟩

/-- C5, counterexample.  The claim says the periodic sweep marks every
overdue complaint whose status is outside {RESOLVED, CLOSED}, in
particular ESCALATED ones.  On the code the sweep filters on status in
{PENDING, IN_PROGRESS}: the overdue ESCALATED complaint satisfies the
save-time breach condition, yet the sweep at time 10 marks nothing and
leaves its flag false. -/
theorem C5_counterexample :
    overdueNow 10 exC5 = true ∧
    check_sla_breaches exDB5 10 = (exDB5, 0) ∧
    (getC (check_sla_breaches exDB5 10).1 3).map (fun c => c.is_sla_breached) = some false := by
  decide

/-- C5, amended.  Whenever the current time exceeds sla_deadline and
status is outside {RESOLVED, CLOSED}, any save of the complaint instance
sets is_sla_breached (part one), so the full-save operations — staff
update (part two) and claim (part three) — persist the flag; the periodic
sweep however marks exactly the overdue unbreached complaints whose
status is PENDING or IN_PROGRESS (part four), and therefore does not mark
overdue ESCALATED complaints. -/
theorem C5_breach_amended :
    (∀ (slas : List SLA) (old : Option Complaint) (now : Time) (u : Complaint),
      overdueNow now u = true → (saveInstance slas old now u).is_sla_breached = true) ∧
    (∀ (db : DB) (now : Time) (actor cid : Nat) (f : StatusUpdateForm) (c : Complaint)
      (d : Time),
      getC db cid = some c → ¬(c.assigned_staff.isSome ∧ c.assigned_staff ≠ some actor) →
      c.sla_deadline = some d → d < now →
      ¬f.status = Status.resolved → ¬f.status = Status.closed →
      ∃ c', getC (staff_update_complaint db now actor cid f).1 cid = some c' ∧
        c'.is_sla_breached = true) ∧
    (∀ (db : DB) (now : Time) (actor cid : Nat) (c : Complaint) (d : Time),
      getC db cid = some c → c.assigned_staff = none → c.sla_deadline = some d → d < now →
      ∃ c', getC (staff_claim_complaint db now actor cid).1 cid = some c' ∧
        c'.is_sla_breached = true) ∧
    (∀ (db : DB) (now : Time) (cid : Nat) (c : Complaint),
      (db.complaints.map (fun x => x.id)).Nodup →
      getC db cid = some c →
      ∃ c', getC (check_sla_breaches db now).1 cid = some c' ∧
        c'.is_sla_breached = (c.is_sla_breached || breachFilter now c)) := by
  refine ⟨?_, ?_, ?_, ?_⟩
  · intro slas old now u h
    rw [saveInstance_breached, h, Bool.or_true]
  · intro db now actor cid f c d hc hguard hd hlt hres hcl
    obtain ⟨hout, hval⟩ := getC_staff_update_self db now actor cid f c hc hguard
    refine ⟨_, hval, ?_⟩
    rw [saveInstance_breached]
    have hov : overdueNow now (appliedForm c actor f) = true := by
      unfold overdueNow
      rw [appliedForm_deadline, appliedForm_status, hd]
      simp [hres, hcl, hlt]
    rw [hov, Bool.or_true]
  · intro db now actor cid c d hc hun hd hlt
    obtain ⟨hout, hval⟩ := getC_claim_self db now actor cid c hc hun
    refine ⟨_, hval, ?_⟩
    rw [saveInstance_breached]
    have hov : overdueNow now
        ({ c with assigned_staff := some actor, status := Status.in_progress } : Complaint) =
          true := by
      unfold overdueNow
      show (match c.sla_deadline with
        | some dd => !(decide (Status.in_progress = Status.resolved)) &&
            !(decide (Status.in_progress = Status.closed)) && decide (dd < now)
        | none => false) = true
      rw [hd]
      simp [hlt]
    rw [hov, Bool.or_true]
  · intro db now cid c hwf hc
    rw [getC_check_sla_breaches db now hwf cid c hc]
    by_cases hp : breachFilter now c = true
    · refine ⟨_, by rw [if_pos hp], ?_⟩
      simp [hp]
    · simp only [Bool.not_eq_true] at hp
      refine ⟨c, by rw [hp]; simp, ?_⟩
      simp [hp]

/-- C5, witness for the amended theorem: a staff update of the overdue
pending complaint at time 5 persists the breach flag, and the sweep over
the store holding only the overdue ESCALATED complaint leaves its flag
equal to false OR its filter value — which evaluates to false, so it is
not marked. -/
theorem C5_witness :
    (∃ c', getC (staff_update_complaint exDB8 5 7 1 (exForm Status.in_progress)).1 1 =
        some c' ∧ c'.is_sla_breached = true) ∧
    (∃ c', getC (check_sla_breaches exDB5 10).1 3 = some c' ∧
      c'.is_sla_breached = (exC5.is_sla_breached || breachFilter 10 exC5)) :=
  ⟨C5_breach_amended.2.1 exDB8 5 7 1 (exForm Status.in_progress) exC8 4 (by decide) (by decide)
      (by decide) (by decide) (by decide) (by decide),
   C5_breach_amended.2.2.2 exDB5 10 3 exC5 (by decide) (by decide)⟩

/-- C6: the staff claim operation fails with AlreadyAssigned — changing
nothing — exactly when the complaint already has an assignee; on an
unassigned complaint it sets assigned_staff to the acting staff member
and status to IN_PROGRESS. -/
theorem C6_claim_iff :
    ∀ (db : DB) (now : Time) (actor cid : Nat) (c : Complaint),
      getC db cid = some c →
      (((staff_claim_complaint db now actor cid).2 = ClaimOutcome.alreadyAssigned ∧
        (staff_claim_complaint db now actor cid).1 = db) ↔ c.assigned_staff ≠ none) ∧
      (c.assigned_staff = none →
        (staff_claim_complaint db now actor cid).2 = ClaimOutcome.claimed ∧
        ∃ c', getC (staff_claim_complaint db now actor cid).1 cid = some c' ∧
          c'.assigned_staff = some actor ∧ c'.status = Status.in_progress) := by
  intro db now actor cid c hc
  cases hstaff : c.assigned_staff with
  | some x =>
      have hres := claim_already db now actor cid c hc (by rw [hstaff]; rfl)
      constructor
      · rw [hres]
        simp
      · intro hcontra
        cases hcontra
  | none =>
      obtain ⟨hout, hval⟩ := getC_claim_self db now actor cid c hc hstaff
      constructor
      · constructor
        · intro ⟨hbad, _⟩
          rw [hout] at hbad
          cases hbad
        · intro hbad
          exact absurd rfl hbad
      · intro _
        refine ⟨hout, _, hval, ?_, ?_⟩
        · rw [saveInstance_staff]
        · rw [saveInstance_status]

/-- C6, witness: claiming the already-assigned complaint fails, while
claiming the unassigned one assigns the actor and moves it to
IN_PROGRESS. -/
theorem C6_witness :
    ((((staff_claim_complaint exDB6 1 7 5).2 = ClaimOutcome.alreadyAssigned ∧
        (staff_claim_complaint exDB6 1 7 5).1 = exDB6) ↔ exAssigned.assigned_staff ≠ none) ∧
      (exAssigned.assigned_staff = none →
        (staff_claim_complaint exDB6 1 7 5).2 = ClaimOutcome.claimed ∧
        ∃ c', getC (staff_claim_complaint exDB6 1 7 5).1 5 = some c' ∧
          c'.assigned_staff = some 7 ∧ c'.status = Status.in_progress)) ∧
    ((((staff_claim_complaint exDB1 1 7 1).2 = ClaimOutcome.alreadyAssigned ∧
        (staff_claim_complaint exDB1 1 7 1).1 = exDB1) ↔ exComplaint.assigned_staff ≠ none) ∧
      (exComplaint.assigned_staff = none →
        (staff_claim_complaint exDB1 1 7 1).2 = ClaimOutcome.claimed ∧
        ∃ c', getC (staff_claim_complaint exDB1 1 7 1).1 1 = some c' ∧
          c'.assigned_staff = some 7 ∧ c'.status = Status.in_progress)) :=
  ⟨C6_claim_iff exDB6 1 7 5 exAssigned (by decide),
   C6_claim_iff exDB1 1 7 1 exComplaint (by decide)⟩

/-- C7: the auto-escalation sweep escalates exactly the complaints
selected by overdueFilter — breached, status PENDING or IN_PROGRESS,
created before now minus the threshold, and with no unresolved escalation
attached.  It returns their count, appends one SLA_BREACH escalation
record per selected complaint, and sets exactly the selected complaints
to ESCALATED; in particular a breached complaint with an unresolved
escalation attached is skipped while one with only resolved escalations
is escalated (the filter's last conjunct). -/
theorem C7_auto_escalate :
    ∀ (db : DB) (now threshold : Time),
      (db.complaints.map (fun c => c.id)).Nodup →
      (auto_escalate_overdue db now threshold).2 =
        (db.complaints.filter (overdueFilter db now threshold)).length ∧
      (auto_escalate_overdue db now threshold).1.escalations =
        db.escalations ++ (db.complaints.filter (overdueFilter db now threshold)).map
          (fun c => { complaint_id := c.id, escalated_by := none, escalated_to := none, reason := Reason.sla_breach, resolved := false, resolved_at := none }) ∧
      ∀ (cid : Nat) (c : Complaint), getC db cid = some c →
        getC (auto_escalate_overdue db now threshold).1 cid =
          some (if overdueFilter db now threshold c then { c with status := Status.escalated }
                else c) := by
  intro db now threshold hwf
  refine ⟨auto_snd db now threshold, ?_, ?_⟩
  · rw [auto_fst, auto_foldl_escalations]
  · intro cid c hc
    exact getC_auto_escalate db now threshold hwf cid c hc

/-- C7, witness, realising the spec scenario: in a store with two
breached pending complaints created at time 0, swept at time 200 with
threshold 96, the one with an unresolved escalation attached (id 7) is
skipped and the one with only a resolved escalation (id 8) is escalated;
exactly one SLA_BREACH record is appended and the count is 1. -/
theorem C7_witness :
    ((exDB7.complaints.map (fun c => c.id)).Nodup ∧
      overdueFilter exDB7 200 96 exC7a = false ∧
      overdueFilter exDB7 200 96 exC7b = true) ∧
    ((auto_escalate_overdue exDB7 200 96).2 =
        (exDB7.complaints.filter (overdueFilter exDB7 200 96)).length ∧
      (auto_escalate_overdue exDB7 200 96).1.escalations =
        exDB7.escalations ++ (exDB7.complaints.filter (overdueFilter exDB7 200 96)).map
          (fun c => { complaint_id := c.id, escalated_by := none, escalated_to := none, reason := Reason.sla_breach, resolved := false, resolved_at := none }) ∧
      ∀ (cid : Nat) (c : Complaint), getC exDB7 cid = some c →
        getC (auto_escalate_overdue exDB7 200 96).1 cid =
          some (if overdueFilter exDB7 200 96 c then { c with status := Status.escalated }
                else c)) :=
  ⟨by decide, C7_auto_escalate exDB7 200 96 (by decide)⟩

/-- C8: the breach sweep is idempotent.  One run marks every complaint
with deadline before now, flag still false and status PENDING or
IN_PROGRESS, returning their count; a second run at the same or a later
time, with no other state change and no deadline newly expired in
between, changes nothing and returns 0. -/
theorem C8_sweep_idempotent :
    ∀ (db : DB) (t u : Time),
      (db.complaints.map (fun c => c.id)).Nodup →
      t ≤ u →
      (∀ c ∈ db.complaints, ∀ d, c.sla_deadline = some d →
        (c.status = Status.pending ∨ c.status = Status.in_progress) → d < u → d < t) →
      (check_sla_breaches db t).2 = (db.complaints.filter (breachFilter t)).length ∧
      (∀ (cid : Nat) (c : Complaint), getC db cid = some c → breachFilter t c = true →
        ∃ c', getC (check_sla_breaches db t).1 cid = some c' ∧ c'.is_sla_breached = true) ∧
      check_sla_breaches (check_sla_breaches db t).1 u = ((check_sla_breaches db t).1, 0) := by
  intro db t u hwf hle hnew
  refine ⟨check_snd db t, ?_, ?_⟩
  · intro cid c hc hp
    rw [getC_check_sla_breaches db t hwf cid c hc, if_pos hp]
    exact ⟨_, rfl, rfl⟩
  have hfilter : (check_sla_breaches db t).1.complaints.filter (breachFilter u) = [] := by
    rw [check_sla_breaches_complaints db t hwf, List.filter_eq_nil_iff]
    intro x hx
    rw [List.mem_map] at hx
    obtain ⟨c, hcmem, rfl⟩ := hx
    by_cases hp : breachFilter t c = true
    · rw [if_pos hp]
      simp [breachFilter]
    · rw [if_neg hp]
      simp only [Bool.not_eq_true] at hp ⊢
      unfold breachFilter at hp ⊢
      cases hdl : c.sla_deadline with
      | none => simp [hdl]
      | some d =>
          rw [hdl] at hp
          by_cases hst : c.status = Status.pending ∨ c.status = Status.in_progress
          · by_cases hlt : d < u
            · have hdt : d < t := hnew c hcmem d hdl hst hlt
              simp only [decide_eq_true hdt] at hp
              rcases hst with hst | hst <;>
                simp_all
            · simp [hlt]
          · push_neg at hst
            simp [hst.1, hst.2]
  have hpair : check_sla_breaches (check_sla_breaches db t).1 u =
      (((check_sla_breaches db t).1.complaints.filter (breachFilter u)).foldl
          (fun acc c => saveComplaint acc u { c with is_sla_breached := true } .breachOnly)
          (check_sla_breaches db t).1,
        ((check_sla_breaches db t).1.complaints.filter (breachFilter u)).length) := rfl
  rw [hpair, hfilter]
  rfl

/-- C8, witness, realising the spec scenario: the complaint with deadline
4 is marked by the sweep at time 5 (count 1) and the re-run at time 6
changes nothing and returns 0. -/
theorem C8_witness :
    ((check_sla_breaches exDB8 5).2 = (exDB8.complaints.filter (breachFilter 5)).length ∧
      (∀ (cid : Nat) (c : Complaint), getC exDB8 cid = some c → breachFilter 5 c = true →
        ∃ c', getC (check_sla_breaches exDB8 5).1 cid = some c' ∧ c'.is_sla_breached = true) ∧
      check_sla_breaches (check_sla_breaches exDB8 5).1 6 =
        ((check_sla_breaches exDB8 5).1, 0)) ∧
    (check_sla_breaches exDB8 5).2 = 1 :=
  ⟨C8_sweep_idempotent exDB8 5 6 (by decide) (by decide)
      (by
        intro c hc d hd hst hlt
        simp only [exDB8, List.mem_singleton] at hc
        subst hc
        have h4 : (4 : Nat) = d := by
          have hd4 : exC8.sla_deadline = some 4 := rfl
          rw [hd4] at hd
          exact Option.some_injective _ hd
        subst h4
        decide),
   by decide⟩

/-- C9: creating a complaint whose priority has no active SLA policy is
not an error: the row is inserted with sla_deadline null and the breach
flag false, and across any later sequence of core operations that does
not re-create the same primary key, sla_deadline stays null and
is_sla_breached never becomes true. -/
theorem C9_policy_missing :
    ∀ (db : DB) (now : Time) (id st : Nat) (cat : Option Nat) (pr : Priority)
      (ops : List (Time × Op)),
      getC db id = none →
      findActiveSLA db.slas pr = none →
      (∀ p ∈ ops, ∀ id0 st0 cat0 pr0, p.2 = Op.createC id0 st0 cat0 pr0 → id0 ≠ id) →
      getC (createComplaint db now id st cat pr) id =
        some { id := id, student := st, assigned_staff := none, category := cat, priority := pr,
               status := Status.pending, solution := none, sla_deadline := none,
               is_sla_breached := false, created_at := now, resolved_at := none } ∧
      ∃ c', getC (runOps (createComplaint db now id st cat pr) ops) id = some c' ∧
        c'.sla_deadline = none ∧ c'.is_sla_breached = false := by
  intro db now id st cat pr ops habs hsla hops
  have hnew := getC_createComplaint_new db now id st cat pr habs hsla
  refine ⟨hnew, ?_⟩
  have h0 : countId db.complaints id = 0 := by
    unfold countId
    rw [List.countP_eq_zero]
    intro a ha
    unfold getC at habs
    rw [List.find?_eq_none] at habs
    exact habs a ha
  have h1 : countId (createComplaint db now id st cat pr).complaints id ≤ 1 := by
    unfold createComplaint
    simp only [hsla]
    unfold countId at h0 ⊢
    rw [List.countP_append, h0, Nat.zero_add, List.countP_cons, List.countP_nil]
    split <;> omega
  exact runOps_nullDeadline ops (createComplaint db now id st cat pr) id _ hnew rfl rfl h1 hops

/-- C9, witness: creating complaint 2 with priority LOW in the empty
store (which has no SLA policies), then claiming it at time 5 and
sweeping at time 9, leaves sla_deadline null and the breach flag
false. -/
theorem C9_witness :
    getC (createComplaint exDBempty 0 2 10 none Priority.low) 2 =
      some { id := 2, student := 10, assigned_staff := none, category := none,
             priority := Priority.low, status := Status.pending, solution := none,
             sla_deadline := none, is_sla_breached := false, created_at := 0,
             resolved_at := none } ∧
    ∃ c', getC (runOps (createComplaint exDBempty 0 2 10 none Priority.low)
        [(5, Op.claimC 7 2), (9, Op.sweep)]) 2 = some c' ∧
      c'.sla_deadline = none ∧ c'.is_sla_breached = false :=
  C9_policy_missing exDBempty 0 2 10 none Priority.low [(5, Op.claimC 7 2), (9, Op.sweep)]
    (by decide) (by decide)
    (by
      intro p hp id0 st0 cat0 pr0 heq
      simp only [List.mem_cons] at hp
      rcases hp with rfl | rfl | hfalse
      · exact Op.noConfusion heq
      · exact Op.noConfusion heq
      · cases hfalse)

/-- C10, counterexample.  The claim says a staff status update of an
unassigned complaint always auto-assigns the acting staff member.  The
status-update form itself carries an assigned_staff field: when staff 7
submits an update naming staff 8 as assignee, the complaint ends up
assigned to 8, not to the actor 7. -/
theorem C10_counterexample :
    (staff_update_complaint exDB1 1 7 1 exForm10).2 = UpdateOutcome.updated ∧
    (getC (staff_update_complaint exDB1 1 7 1 exForm10).1 1).map
        (fun c => c.assigned_staff) = some (some 8) ∧
    ¬((getC (staff_update_complaint exDB1 1 7 1 exForm10).1 1).map
        (fun c => c.assigned_staff) = some (some 7)) := by
  decide

/-- C10, amended.  A staff status update of an unassigned complaint
silently assigns it: to the acting staff member when the form leaves the
assignee empty, otherwise to the assignee the form names.  In both cases
the outcome is a plain update (no AlreadyAssigned) and status becomes
exactly the status the form requests. -/
theorem C10_auto_claim_amended :
    ∀ (db : DB) (now : Time) (actor cid : Nat) (f : StatusUpdateForm) (c : Complaint),
      getC db cid = some c → c.assigned_staff = none →
      (staff_update_complaint db now actor cid f).2 = UpdateOutcome.updated ∧
      ∃ c', getC (staff_update_complaint db now actor cid f).1 cid = some c' ∧
        c'.assigned_staff = some (f.assigned_staff.getD actor) ∧
        c'.status = f.status := by
  intro db now actor cid f c hc hun
  have hguard : ¬(c.assigned_staff.isSome ∧ c.assigned_staff ≠ some actor) := by
    rw [hun]
    simp
  obtain ⟨hout, hval⟩ := getC_staff_update_self db now actor cid f c hc hguard
  refine ⟨hout, _, hval, ?_, ?_⟩
  · rw [saveInstance_staff, appliedForm_staff]
  · rw [saveInstance_status, appliedForm_status]

/-- C10, witness for the amended theorem: the update without an explicit
assignee auto-assigns actor 7, the one naming staff 8 assigns 8. -/
theorem C10_witness :
    ((staff_update_complaint exDB1 1 7 1 (exForm Status.pending)).2 = UpdateOutcome.updated ∧
      ∃ c', getC (staff_update_complaint exDB1 1 7 1 (exForm Status.pending)).1 1 = some c' ∧
        c'.assigned_staff = some ((exForm Status.pending).assigned_staff.getD 7) ∧
        c'.status = (exForm Status.pending).status) ∧
    ((staff_update_complaint exDB1 1 7 1 exForm10).2 = UpdateOutcome.updated ∧
      ∃ c', getC (staff_update_complaint exDB1 1 7 1 exForm10).1 1 = some c' ∧
        c'.assigned_staff = some (exForm10.assigned_staff.getD 7) ∧
        c'.status = exForm10.status) :=
  ⟨C10_auto_claim_amended exDB1 1 7 1 (exForm Status.pending) exComplaint (by decide) (by decide),
   C10_auto_claim_amended exDB1 1 7 1 exForm10 exComplaint (by decide) (by decide)⟩

end ComplaintSystem
